import Mathlib

/-!
# optparse: a shallow embedding of `optparse.c` and its contract

The development follows `src/optparse.c` function by function.

Modelling conventions
* A C string is the list of its characters before the terminator; reading
  past the end yields the terminator (`cget`).  A null pointer is `none`.
* The caller-owned destination cells live in `World`: one address space per
  cell type (`int`, `unsigned`, `double`, `char *`), together with the text
  written to `stdout` and `stderr`.  The field `calls` is a trace of the
  `opt->func(opt, arg)` invocations in call order; it is instrumentation only.
* A call ends in a `Status`: it returns a value, terminates the process with
  `exit`, or has undefined behaviour (a null pointer handed to a libc number
  parser, or the end pointer read after `strtol` or `strtoul` was given a
  base that is neither 0 nor within 2..36).
* Integer widths are those of an LP64 platform: `int` and `unsigned` have 32
  bits, `long` and `unsigned long` have 64 bits.
* `strtol` and `strtoul` belong to the C library; they are modelled after
  ISO C 7.22.1.4, which describes them for a base that is 0 or within 2..36
  only.  For any other base nothing is assumed about what they return or
  about `*endptr`, which the C library may leave unwritten.  `strtod` is
  taken as a parameter; a `double` is represented by its bit pattern.
-/

namespace Optparse

/-! ## C strings -/

/-- A C string: the characters before the terminating zero byte. -/
abbrev CStr := List Char

/-- The terminating zero byte. -/
def NUL : Char := Char.ofNat 0

/-- The character `s[i]`; the terminator when `i` is at or past the end. -/
def cget (s : CStr) (i : Nat) : Char := s.getD i NUL

/-- The libc function `strlen`. -/
def strlen (s : CStr) : Nat := s.length

/-- The libc function `strncmp`: compares at most `n` characters and stops at
a terminator.  With `n = 0` no character of either string is read. -/
def strncmp : CStr → CStr → Nat → Int
  | _, _, 0 => 0
  | s1, s2, n + 1 =>
    if cget s1 0 ≠ cget s2 0 then ((cget s1 0).toNat : Int) - ((cget s2 0).toNat : Int)
    else if cget s1 0 = NUL then 0
    else strncmp (s1.drop 1) (s2.drop 1) n

/-! ## Limits of the integer types (`limits.h`, LP64) -/

def INT_MIN : Int := -2147483648
def INT_MAX : Int := 2147483647
def UINT_MAX : Nat := 4294967295
def LONG_MIN : Int := -9223372036854775808
def LONG_MAX : Int := 9223372036854775807
def ULONG_MAX : Nat := 18446744073709551615

/-! ## The libc integer parsers -/

/-- The libc function `isspace` in the C locale. -/
def isspace (c : Char) : Bool :=
  c.toNat = 32 || (9 ≤ c.toNat && c.toNat ≤ 13)

/-- The value of a digit character: `0`..`9`, then letters of either case
from 10 to 35. -/
def digit_value (c : Char) : Option Nat :=
  if 48 ≤ c.toNat ∧ c.toNat ≤ 57 then some (c.toNat - 48)
  else if 97 ≤ c.toNat ∧ c.toNat ≤ 122 then some (c.toNat - 87)
  else if 65 ≤ c.toNat ∧ c.toNat ≤ 90 then some (c.toNat - 55)
  else none

/-- Whether `c` is a digit of the given base. -/
def is_digit (base : Nat) (c : Char) : Bool :=
  match digit_value c with
  | some d => decide (d < base)
  | none => false

/-- Reads the longest run of digits of the given base; returns the
accumulated value and the number of digits read. -/
def scan_digits (base : Nat) : CStr → Nat → Nat → Nat × Nat
  | [], acc, n => (acc, n)
  | c :: cs, acc, n =>
    match digit_value c with
    | some d => if d < base then scan_digits base cs (acc * base + d) (n + 1) else (acc, n)
    | none => (acc, n)

/-- The subject sequence of `strtol`/`strtoul` (ISO C 7.22.1.4): optional
white space, an optional sign, an optional `0x` when the base is 0 or 16, and
the longest run of digits.  Returns the sign, the magnitude as a mathematical
number, and the offset of the first unread character.  When no digit is
found there is no subject sequence: no conversion is performed and the offset
is 0.  The standard defines a subject sequence for a base that is 0 or within
2..36 only; for any other base the function reports that there is none, and
`strtol` and `strtoul` do not consult it. -/
def parse_subject (s : CStr) (base : Nat) : Bool × Nat × Nat :=
  if ¬ (base = 0 ∨ (2 ≤ base ∧ base ≤ 36)) then (false, 0, 0)
  else
    let ws := (s.takeWhile isspace).length
    let r := s.drop ws
    let neg : Bool := cget r 0 = '-'
    let sl : Nat := if cget r 0 = '-' ∨ cget r 0 = '+' then 1 else 0
    let r := r.drop sl
    let hex : Bool := (base = 0 ∨ base = 16) ∧ cget r 0 = '0'
      ∧ (cget r 1 = 'x' ∨ cget r 1 = 'X') ∧ is_digit 16 (cget r 2)
    let b : Nat := if hex then 16 else if base = 0 then (if cget r 0 = '0' then 8 else 10) else base
    let pl : Nat := if hex then 2 else 0
    let vn := scan_digits b (r.drop pl) 0 0
    if vn.2 = 0 then (false, 0, 0) else (neg, vn.1, ws + sl + pl + vn.2)

/-- The libc function `strtol`: the converted value, clamped to the range of
`long`, and the offset stored through `endptr`.  The result is `none` when the
base is neither 0 nor within 2..36: the standard does not say what is
returned then, and `*endptr` need not have been written. -/
def strtol (s : CStr) (base : Nat) : Option (Int × Nat) :=
  if base = 0 ∨ (2 ≤ base ∧ base ≤ 36) then
    let r := parse_subject s base
    let v : Int := if r.1 then -(r.2.1 : Int) else (r.2.1 : Int)
    some (if v < LONG_MIN then LONG_MIN else if v > LONG_MAX then LONG_MAX else v, r.2.2)
  else none

/-- The libc function `strtoul`: a magnitude above `ULONG_MAX` yields
`ULONG_MAX`; otherwise a leading minus sign negates in `unsigned long`.  The
result is `none` when the base is neither 0 nor within 2..36, as for
`strtol`. -/
def strtoul (s : CStr) (base : Nat) : Option (Nat × Nat) :=
  if base = 0 ∨ (2 ≤ base ∧ base ≤ 36) then
    let r := parse_subject s base
    some (if r.2.1 > ULONG_MAX then ULONG_MAX
      else if r.1 then (ULONG_MAX + 1 - r.2.1) % (ULONG_MAX + 1) else r.2.1, r.2.2)
  else none

/-! ## Data model -/

/-- The flag bit `OPTPARSE_FLAG_OPTIONAL`. -/
def OPTPARSE_FLAG_OPTIONAL : Nat := 1 <<< 0

/-- The converters an option's `func` pointer can designate. -/
inductive optparse_func where
  | handle_help
  | handle_set
  | handle_int
  | handle_unsigned
  | handle_double
  | handle_string
  deriving DecidableEq

/-- The record `struct optparse_opt`.  The back pointer `parser` is passed
explicitly to the functions that follow it; `next` is the list structure of
`optparse.options`.  The union `spec` is kept as its two members. -/
structure optparse_opt where
  short_opt : Int
  long_opt : Option CStr
  long_opt_len : Nat
  arg_desc : Option CStr
  help : Option CStr
  flags : Nat
  func : optparse_func
  data : Nat
  num_base : Nat
  set_value : Int
  deriving DecidableEq

/-- The record `struct optparse`.  The list `options` is in registration
order (the C code appends through `last_option`). -/
structure optparse where
  progname : CStr
  arg_summary : Option CStr
  options : List optparse_opt
  argi : Nat
  argc : Nat
  argv : List CStr
  deriving DecidableEq

/-- Caller memory and output streams. -/
structure World where
  ints : Nat → Int
  uints : Nat → Nat
  doubles : Nat → Nat
  strs : Nat → Option CStr
  stdout : CStr
  stderr : CStr
  calls : List (optparse_opt × Option CStr)

/-- How a call ends. -/
inductive Status where
  | ret (v : Int)
  | exited (code : Int)
  | crashed
  deriving DecidableEq

/-- The assignment `*ptr = v` on one address space. -/
def store {α : Type} (m : Nat → α) (a : Nat) (v : α) : Nat → α :=
  fun x => if x = a then v else m x

/-- Output of `text` on `stderr`. -/
def eprint (w : World) (text : CStr) : World := { w with stderr := w.stderr ++ text }

/-! ## Construction and registration -/

/-- The function `optparse_new`.  The record is zero-filled, so the test on
`parser->arg_summary` reads a null pointer. -/
def optparse_new (progname : Option CStr) (arg_summary : Option CStr) : optparse :=
  let parser : optparse :=
    { progname := [], arg_summary := none, options := [], argi := 0, argc := 0, argv := [] }
  let progname := match progname with
    | some p => p
    | none => "unknown".toList
  let parser := { parser with progname := progname }
  if parser.arg_summary.isSome then { parser with arg_summary := arg_summary } else parser

/-- The function `optparse_opt_new`: builds the zero-filled record, fills it
in and appends it to the registry.  The returned handle is the position of the
new record in `options`. -/
def optparse_opt_new (parser : optparse) (short_opt : Int) (long_opt : Option CStr)
    (arg_desc : Option CStr) (help : Option CStr) (func : optparse_func) (data : Nat) :
    optparse × Nat :=
  let opt : optparse_opt :=
    { short_opt := short_opt
      long_opt := long_opt
      long_opt_len := match long_opt with
        | some l => strlen l
        | none => 0
      arg_desc := arg_desc
      help := help
      flags := 0
      func := func
      data := data
      num_base := 0
      set_value := 0 }
  ({ parser with options := parser.options ++ [opt] }, parser.options.length)

/-- A write through an option handle: replaces the record at position `h`. -/
def via_handle (parser : optparse) (h : Nat) (f : optparse_opt → optparse_opt) : optparse :=
  match parser.options.get? h with
  | some opt => { parser with options := parser.options.set h (f opt) }
  | none => parser

/-- The function `optparse_arg_optional`, on the record it points to. -/
def optparse_arg_optional (opt : optparse_opt) : optparse_opt :=
  { opt with flags := opt.flags ||| OPTPARSE_FLAG_OPTIONAL }

/-- The function `optparse_add_help`. -/
def optparse_add_help (parser : optparse) : optparse × Nat :=
  optparse_opt_new parser ('h'.toNat : Int) (some "help".toList) none
    (some "display this help and exit".toList) optparse_func.handle_help 0

/-- The function `optparse_add_set`. -/
def optparse_add_set (parser : optparse) (short_opt : Int) (long_opt : Option CStr)
    (value : Int) (ptr : Nat) (help : Option CStr) : optparse × Nat :=
  let r := optparse_opt_new parser short_opt long_opt none help optparse_func.handle_set ptr
  (via_handle r.1 r.2 (fun opt => { opt with set_value := value }), r.2)

/-- The function `optparse_add_int`. -/
def optparse_add_int (parser : optparse) (short_opt : Int) (long_opt : Option CStr)
    (arg_desc : Option CStr) (base : Nat) (ptr : Nat) (help : Option CStr) : optparse × Nat :=
  let arg_desc := match arg_desc with
    | some d => d
    | none => "NUM".toList
  let r := optparse_opt_new parser short_opt long_opt (some arg_desc) help
    optparse_func.handle_int ptr
  (via_handle r.1 r.2 (fun opt => { opt with num_base := base }), r.2)

/-- The function `optparse_add_unsigned`. -/
def optparse_add_unsigned (parser : optparse) (short_opt : Int) (long_opt : Option CStr)
    (arg_desc : Option CStr) (base : Nat) (ptr : Nat) (help : Option CStr) : optparse × Nat :=
  let arg_desc := match arg_desc with
    | some d => d
    | none => "NUM".toList
  let r := optparse_opt_new parser short_opt long_opt (some arg_desc) help
    optparse_func.handle_unsigned ptr
  (via_handle r.1 r.2 (fun opt => { opt with num_base := base }), r.2)

/-- The function `optparse_add_double`. -/
def optparse_add_double (parser : optparse) (short_opt : Int) (long_opt : Option CStr)
    (arg_desc : Option CStr) (ptr : Nat) (help : Option CStr) : optparse × Nat :=
  let arg_desc := match arg_desc with
    | some d => d
    | none => "NUM".toList
  optparse_opt_new parser short_opt long_opt (some arg_desc) help
    optparse_func.handle_double ptr

/-- The function `optparse_add_string`. -/
def optparse_add_string (parser : optparse) (short_opt : Int) (long_opt : Option CStr)
    (arg_desc : Option CStr) (ptr : Nat) (help : Option CStr) : optparse × Nat :=
  let arg_desc := match arg_desc with
    | some d => d
    | none => "STRING".toList
  optparse_opt_new parser short_opt long_opt (some arg_desc) help
    optparse_func.handle_string ptr

/-! ## Help text -/

/-- The character printed by `%c` for an `int` argument. -/
def char_of_int (c : Int) : Char := Char.ofNat (c % 256).toNat

/-- One `col += fprintf(fp, ...)` step: appends `text` and advances the column. -/
def emit (acc : CStr × Nat) (text : CStr) : CStr × Nat := (acc.1 ++ text, acc.2 + text.length)

/-- The body of the loop of `optparse_help` for one option. -/
def help_line (opt : optparse_opt) : CStr :=
  let acc : CStr × Nat := ([], 0)
  let acc := emit acc "  ".toList
  let acc :=
    if opt.short_opt ≠ 0 then
      let acc := emit acc ['-', char_of_int opt.short_opt]
      if opt.long_opt.isSome then emit acc ", ".toList
      else match opt.arg_desc with
        | some d => emit acc (' ' :: d)
        | none => emit acc "  ".toList
    else emit acc "    ".toList
  let acc :=
    match opt.long_opt with
    | some l =>
      let acc := emit acc ("--".toList ++ l)
      match opt.arg_desc with
      | some d => emit acc ('=' :: d)
      | none => acc
    | none => acc
  let text :=
    match opt.help with
    | some h =>
      let acc := if acc.2 ≥ 28 then (acc.1 ++ ['\n'], 0) else acc
      acc.1 ++ List.replicate (28 - acc.2) ' ' ++ h
    | none => acc.1
  text ++ ['\n']

/-- The function `optparse_help`: the text written to `fp`. -/
def optparse_help (parser : optparse) : CStr :=
  let text := "Usage: ".toList ++ parser.progname ++ " [OPTIONS...]".toList
  let text := match parser.arg_summary with
    | some s => text ++ (' ' :: s)
    | none => text
  let text := text ++ "\n\n".toList
  text ++ (parser.options.map help_line).flatten

/-! ## Converters -/

/-- The function `optparse_handle_help`. -/
def optparse_handle_help (parser : optparse) (_opt : optparse_opt) (_arg : Option CStr)
    (w : World) : Status × World :=
  (Status.exited 0, { w with stdout := w.stdout ++ optparse_help parser })

/-- The function `optparse_handle_set`. -/
def optparse_handle_set (_ : optparse) (opt : optparse_opt) (_arg : Option CStr)
    (w : World) : Status × World :=
  (Status.ret 1, { w with ints := store w.ints opt.data opt.set_value })

/-- The text of the diagnostic shared by the numeric converters. -/
def invalid_number_msg (parser : optparse) (arg : CStr) : CStr :=
  parser.progname ++ ": invalid number \"".toList ++ arg ++ "\"\n".toList

/-- The function `optparse_handle_int`.  A null `arg` reaches `strtol`.  The
local `p` is declared without an initialiser and `opt->num_base` is handed to
`strtol` unchecked, so with a base that `strtol` does not support the test
`*p` reads a pointer that need not have been written. -/
def optparse_handle_int (parser : optparse) (opt : optparse_opt) (arg : Option CStr)
    (w : World) : Status × World :=
  match arg with
  | none => (Status.crashed, w)
  | some a =>
    match strtol a opt.num_base with
    | none => (Status.crashed, w)
    | some lp =>
      if cget a lp.2 ≠ NUL ∨ lp.1 < INT_MIN ∨ lp.1 > INT_MAX then
        (Status.ret 0, eprint w (invalid_number_msg parser a))
      else
        (Status.ret 1, { w with ints := store w.ints opt.data lp.1 })

/-- The function `optparse_handle_unsigned`.  A null `arg` reaches `strtoul`;
an unsupported base is as in `optparse_handle_int`. -/
def optparse_handle_unsigned (parser : optparse) (opt : optparse_opt) (arg : Option CStr)
    (w : World) : Status × World :=
  match arg with
  | none => (Status.crashed, w)
  | some a =>
    match strtoul a opt.num_base with
    | none => (Status.crashed, w)
    | some lp =>
      if cget a lp.2 ≠ NUL ∨ lp.1 > UINT_MAX then
        (Status.ret 0, eprint w (invalid_number_msg parser a))
      else
        (Status.ret 1, { w with uints := store w.uints opt.data lp.1 })

/-- The function `optparse_handle_double`; `strtod` yields the bit pattern of
the converted value and the offset stored through `endptr`.  A null `arg`
reaches `strtod`. -/
def optparse_handle_double (strtod : CStr → Nat × Nat) (parser : optparse)
    (opt : optparse_opt) (arg : Option CStr) (w : World) : Status × World :=
  match arg with
  | none => (Status.crashed, w)
  | some a =>
    let dp := strtod a
    if cget a dp.2 ≠ NUL then
      (Status.ret 0, eprint w (invalid_number_msg parser a))
    else
      (Status.ret 1, { w with doubles := store w.doubles opt.data dp.1 })

/-- The function `optparse_handle_string`. -/
def optparse_handle_string (_ : optparse) (opt : optparse_opt) (arg : Option CStr)
    (w : World) : Status × World :=
  (Status.ret 1, { w with strs := store w.strs opt.data arg })

/-- The indirect call `opt->func(opt, arg)`: records the invocation in the
trace and runs the converter the option designates. -/
def invoke (strtod : CStr → Nat × Nat) (parser : optparse) (opt : optparse_opt)
    (arg : Option CStr) (w : World) : Status × World :=
  let w := { w with calls := w.calls ++ [(opt, arg)] }
  match opt.func with
  | optparse_func.handle_help => optparse_handle_help parser opt arg w
  | optparse_func.handle_set => optparse_handle_set parser opt arg w
  | optparse_func.handle_int => optparse_handle_int parser opt arg w
  | optparse_func.handle_unsigned => optparse_handle_unsigned parser opt arg w
  | optparse_func.handle_double => optparse_handle_double strtod parser opt arg w
  | optparse_func.handle_string => optparse_handle_string parser opt arg w

/-! ## Scanning -/

/-- The diagnostic for a long option that lacks its argument. -/
def long_requires_msg (parser : optparse) (s : CStr) : CStr :=
  parser.progname ++ ": \"--".toList ++ s ++ "\" requires an argument\n".toList

/-- The diagnostic for a long flag that was given an argument. -/
def long_no_arg_msg (parser : optparse) (s : CStr) : CStr :=
  parser.progname ++ ": \"--".toList ++ s ++ "\" does not take an argument\n".toList

/-- The two-line diagnostic for an unknown long option. -/
def long_invalid_msg (parser : optparse) (s : CStr) : CStr :=
  parser.progname ++ ": invalid option \"--".toList ++ s ++ "\"\n".toList
    ++ "Try \"".toList ++ parser.progname ++ " --help\" for more information.\n".toList

/-- The diagnostic for a short option that lacks its argument. -/
def short_requires_msg (parser : optparse) (c : Char) : CStr :=
  parser.progname ++ ": \"-".toList ++ [c] ++ "\" requires an argument\n".toList

/-- The two-line diagnostic for an unknown short option. -/
def short_invalid_msg (parser : optparse) (c : Char) : CStr :=
  parser.progname ++ ": invalid option \"-".toList ++ [c] ++ "\"\n".toList
    ++ "Try \"".toList ++ parser.progname ++ " --help\" for more information.\n".toList

/-- The loop of `handle_long_opt` over the options that remain to be tried.
A null `long_opt` has `long_opt_len = 0`, so `strncmp` reads nothing of it. -/
def long_opt_loop (strtod : CStr → Nat × Nat) (parser : optparse) (s : CStr) :
    List optparse_opt → World → Status × World
  | [], w => (Status.ret 0, eprint w (long_invalid_msg parser s))
  | opt :: rest, w =>
    if strncmp s (opt.long_opt.getD []) opt.long_opt_len = 0 then
      if cget s opt.long_opt_len = NUL then
        if opt.arg_desc.isSome ∧ opt.flags &&& OPTPARSE_FLAG_OPTIONAL = 0 then
          (Status.ret 0, eprint w (long_requires_msg parser s))
        else invoke strtod parser opt none w
      else if cget s opt.long_opt_len = '=' then
        if opt.arg_desc.isNone then
          (Status.ret 0, eprint w (long_no_arg_msg parser s))
        else invoke strtod parser opt (some (s.drop (opt.long_opt_len + 1))) w
      else long_opt_loop strtod parser s rest w
    else long_opt_loop strtod parser s rest w

/-- The function `handle_long_opt`. -/
def handle_long_opt (strtod : CStr → Nat × Nat) (parser : optparse) (s : CStr) (w : World) :
    Status × World :=
  long_opt_loop strtod parser s parser.options w

/-- The loop of `handle_short_opt` over the options that remain to be tried.
The argument of an option is `argv[argi++]`, so the cursor is part of the
result. -/
def short_opt_loop (strtod : CStr → Nat × Nat) (parser : optparse) (c : Char) :
    List optparse_opt → World → Status × optparse × World
  | [], w => (Status.ret 0, parser, eprint w (short_invalid_msg parser c))
  | opt :: rest, w =>
    if opt.short_opt ≠ 0 ∧ (c.toNat : Int) = opt.short_opt then
      if opt.arg_desc.isSome then
        if parser.argi ≥ parser.argc then
          (Status.ret 0, parser, eprint w (short_requires_msg parser c))
        else
          let arg := parser.argv.getD parser.argi []
          let parser := { parser with argi := parser.argi + 1 }
          let r := invoke strtod parser opt (some arg) w
          (r.1, parser, r.2)
      else
        let r := invoke strtod parser opt none w
        (r.1, parser, r.2)
    else short_opt_loop strtod parser c rest w

/-- The function `handle_short_opt`. -/
def handle_short_opt (strtod : CStr → Nat × Nat) (parser : optparse) (c : Char) (w : World) :
    Status × optparse × World :=
  short_opt_loop strtod parser c parser.options w

/-- What one pass through the body of the `while` loop produces: the loop goes
round again, or `optparse_parse` is left with a status. -/
inductive Step where
  | next (parser : optparse) (w : World)
  | stop (st : Status) (parser : optparse) (w : World)

/-- The continuation after `handle_long_opt` or `handle_short_opt`: a zero
result makes `optparse_parse` return -1, a non-zero result continues the loop,
and a converter that does not return ends the run. -/
def after_handler (r : Status × optparse × World) : Step :=
  match r.1 with
  | Status.ret v => if v = 0 then Step.stop (Status.ret (-1)) r.2.1 r.2.2 else Step.next r.2.1 r.2.2
  | st => Step.stop st r.2.1 r.2.2

/-- One evaluation of the loop condition and body of `optparse_parse`. -/
def loop_iter (strtod : CStr → Nat × Nat) (parser : optparse) (w : World) : Step :=
  if parser.argi < parser.argc then
    let s := parser.argv.getD parser.argi []
    let parser := { parser with argi := parser.argi + 1 }
    if cget s 0 = '-' ∧ cget s 1 = '-' then
      if cget s 2 = NUL then Step.stop (Status.ret parser.argi) parser w
      else
        let r := handle_long_opt strtod parser (s.drop 2) w
        after_handler (r.1, parser, r.2)
    else if cget s 0 = '-' then
      if cget s 1 = NUL then Step.stop (Status.ret parser.argi) parser w
      else after_handler (handle_short_opt strtod parser (cget s 1) w)
    else
      let parser := { parser with argi := parser.argi - 1 }
      Step.stop (Status.ret parser.argi) parser w
  else Step.stop (Status.ret parser.argi) parser w

/-- The `while` loop of `optparse_parse`, bounded by `fuel` iterations. -/
def parse_loop (strtod : CStr → Nat × Nat) : Nat → optparse → World →
    Option (Status × optparse × World)
  | 0, _, _ => none
  | fuel + 1, parser, w =>
    match loop_iter strtod parser w with
    | Step.stop st parser w => some (st, parser, w)
    | Step.next parser w => parse_loop strtod fuel parser w

/-- The parser record at loop entry: `argc`, `argv` stored, cursor at 0.  The
argument vector is the list of its `argc` tokens. -/
def scan_start (parser : optparse) (argv : List CStr) : optparse :=
  { parser with argc := argv.length, argv := argv, argi := 0 }

/-- The function `optparse_parse`.  Every iteration that continues advances the
cursor, so `argc + 1` iterations suffice (`optparse_parse_total`). -/
def optparse_parse (strtod : CStr → Nat × Nat) (parser : optparse) (argv : List CStr)
    (w : World) : Option (Status × optparse × World) :=
  parse_loop strtod (argv.length + 1) (scan_start parser argv) w

/-- The state after `n` iterations of the loop, when all of them continue. -/
def scan_steps (strtod : CStr → Nat × Nat) : Nat → optparse → World → Option (optparse × World)
  | 0, parser, w => some (parser, w)
  | n + 1, parser, w =>
    match loop_iter strtod parser w with
    | Step.next parser w => scan_steps strtod n parser w
    | Step.stop _ _ _ => none

/-- Scanning of `argv` from world `w0` arrives at the loop head with the cursor
at index `i` and the world `w`. -/
def Reaches (strtod : CStr → Nat × Nat) (parser : optparse) (argv : List CStr) (w0 : World)
    (i : Nat) (w : World) : Prop :=
  ∃ n, scan_steps strtod n (scan_start parser argv) w0
    = some ({ scan_start parser argv with argi := i }, w)

/-! ## Vocabulary of the statements -/

/-- The test of `handle_short_opt` on one option: whether the loop stops at
`opt` for the character `c`. -/
def short_hit (c : Char) (opt : optparse_opt) : Bool :=
  decide (opt.short_opt ≠ 0 ∧ (c.toNat : Int) = opt.short_opt)

/-- The tests of `handle_long_opt` on one option: whether the loop stops at
`opt` for the text `s` (the token without its leading dashes). -/
def long_hit (s : CStr) (opt : optparse_opt) : Bool :=
  decide (strncmp s (opt.long_opt.getD []) opt.long_opt_len = 0
    ∧ (cget s opt.long_opt_len = NUL ∨ cget s opt.long_opt_len = '='))

/-- A world with zeroed cells, null string cells and empty streams. -/
def world0 : World :=
  { ints := fun _ => 0
    uints := fun _ => 0
    doubles := fun _ => 0
    strs := fun _ => none
    stdout := []
    stderr := []
    calls := [] }

/-- A stand-in for `strtod` that converts nothing. -/
def strtod0 : CStr → Nat × Nat := fun _ => (0, 0)

/-- The registry of the scenario: the help option, then an `int` option of
base 0 with forms `-n` and `--num=NUM`, stored at `ptr`. -/
def help_num_registry (progname : Option CStr) (ptr : Nat) : optparse :=
  (optparse_add_int (optparse_add_help (optparse_new progname none)).1
    ('n'.toNat : Int) (some "num".toList) (some "NUM".toList) 0 ptr none).1

/-- The record that `optparse_add_help` registers. -/
def help_opt : optparse_opt :=
  { short_opt := 104
    long_opt := some "help".toList
    long_opt_len := 4
    arg_desc := none
    help := some "display this help and exit".toList
    flags := 0
    func := optparse_func.handle_help
    data := 0
    num_base := 0
    set_value := 0 }

/-- The record of the `int` option of `help_num_registry`. -/
def num_opt (ptr : Nat) : optparse_opt :=
  { short_opt := 110
    long_opt := some "num".toList
    long_opt_len := 3
    arg_desc := some "NUM".toList
    help := none
    flags := 0
    func := optparse_func.handle_int
    data := ptr
    num_base := 0
    set_value := 0 }

/-- The registry that `main` of `test-optparse.c` builds.  The cells
`flag_int`, `flag_unsigned`, `flag_double` and `flag_string` are at address 0
of their address spaces.  As `optparse_new` leaves `arg_summary` null, the
summary passed by `main` is not stored. -/
def test_registry : optparse :=
  let parser := optparse_new (some "test-optparse".toList) (some "ARGS...".toList)
  let parser := (optparse_add_help parser).1
  let parser := (optparse_add_set parser ('1'.toNat : Int) (some "1".toList) 1 0
    (some "set 1".toList)).1
  let parser := (optparse_add_set parser ('2'.toNat : Int) (some "2".toList) 2 0
    (some "set 2".toList)).1
  let parser := (optparse_add_set parser ('3'.toNat : Int) (some "3".toList) 3 0
    (some "set 3".toList)).1
  let parser := (optparse_add_int parser ('i'.toNat : Int) (some "int".toList)
    (some "NUM".toList) 0 0 (some "integer argument".toList)).1
  let parser := (optparse_add_unsigned parser ('u'.toNat : Int) (some "unsigned".toList)
    (some "NUM".toList) 0 0 (some "unsigned argument".toList)).1
  let parser := (optparse_add_unsigned parser ('d'.toNat : Int) (some "decimal".toList)
    (some "NUM".toList) 10 0 (some "unsigned decimal argument".toList)).1
  let parser := (optparse_add_unsigned parser ('x'.toNat : Int) (some "hex".toList)
    (some "NUM".toList) 10 0 (some "unsigned hexadecimal argument".toList)).1
  let parser := (optparse_add_double parser ('f'.toNat : Int) (some "float".toList)
    (some "NUM".toList) 0 (some "floating point argument".toList)).1
  let parser := (optparse_add_string parser ('s'.toNat : Int) (some "string".toList)
    none 0 (some "string argument".toList)).1
  let parser := (optparse_add_string parser ('t'.toNat : Int) none
    (some "T".toList) 0 (some "short string argument".toList)).1
  let r := optparse_add_string parser 0 (some "ostring".toList)
    (some "OPT".toList) 0 (some "optional string argument".toList)
  via_handle r.1 r.2 optparse_arg_optional

/-- The option at position `k` of a registry (the help record when `k` is out
of range). -/
def nth_opt (parser : optparse) (k : Nat) : optparse_opt := parser.options.getD k help_opt

/-- A registry with one string option that has both forms, `-o` and
`--ostring`, and is marked optional through its handle. -/
def optional_registry : optparse :=
  let r := optparse_add_string (optparse_new (some "prog".toList) none) ('o'.toNat : Int)
    (some "ostring".toList) (some "OPT".toList) 0 none
  via_handle r.1 r.2 optparse_arg_optional

/-- The canonical decimal text of an integer: an optional leading `-`, then
the decimal digits without leading zeros (`0` for zero), as printed by the
standard `Nat.toDigits`. -/
def decimal_text (v : Int) : CStr :=
  if v < 0 then '-' :: Nat.toDigits 10 v.natAbs else Nat.toDigits 10 v.toNat

/-- The mathematical value of the subject sequence of `a` in the given base:
the signed magnitude, before any clamping to a machine type (0 when there is
no conversion). -/
def literal_value (a : CStr) (base : Nat) : Int :=
  if (parse_subject a base).1 then -((parse_subject a base).2.1 : Int)
  else ((parse_subject a base).2.1 : Int)

/-- The outcome of the iteration at index `i` when the token `--L` is resolved
by the option `o`: the branch of `handle_long_opt` for a token that ends after
the long form, followed by the test of its result in `optparse_parse`. -/
def long_bare_outcome (strtod : CStr → Nat × Nat) (parser : optparse) (argv : List CStr)
    (i : Nat) (o : optparse_opt) (L : CStr) (w : World) : Step :=
  after_handler
    ((if o.arg_desc.isSome ∧ o.flags &&& OPTPARSE_FLAG_OPTIONAL = 0 then
        (Status.ret 0, eprint w (long_requires_msg parser L))
      else invoke strtod { scan_start parser argv with argi := i + 1 } o none w).1,
     { scan_start parser argv with argi := i + 1 },
     (if o.arg_desc.isSome ∧ o.flags &&& OPTPARSE_FLAG_OPTIONAL = 0 then
        (Status.ret 0, eprint w (long_requires_msg parser L))
      else invoke strtod { scan_start parser argv with argi := i + 1 } o none w).2)

/-- The outcome of the iteration at index `i` when the token `--L=x` is
resolved by the option `o`: the branch of `handle_long_opt` for a token that
continues with `=` after the long form, followed by the test of its result in
`optparse_parse`. -/
def long_value_outcome (strtod : CStr → Nat × Nat) (parser : optparse) (argv : List CStr)
    (i : Nat) (o : optparse_opt) (L x : CStr) (w : World) : Step :=
  after_handler
    ((if o.arg_desc.isNone then
        (Status.ret 0, eprint w (long_no_arg_msg parser (L ++ '=' :: x)))
      else invoke strtod { scan_start parser argv with argi := i + 1 } o (some x) w).1,
     { scan_start parser argv with argi := i + 1 },
     (if o.arg_desc.isNone then
        (Status.ret 0, eprint w (long_no_arg_msg parser (L ++ '=' :: x)))
      else invoke strtod { scan_start parser argv with argi := i + 1 } o (some x) w).2)

/-- A registry in which one long form continues another: the string option
`--out`, registered first, and the flag `--output`, which sets the `int` cell
at address 0 to 1. -/
def stem_registry : optparse :=
  let parser := optparse_new (some "prog".toList) none
  let parser := (optparse_add_string parser ('o'.toNat : Int) (some "out".toList) none 0 none).1
  (optparse_add_set parser ('O'.toNat : Int) (some "output".toList) 1 0 none).1

/-- Whether `f` is one of the numeric converters, which hand their argument
to `strtol`, `strtoul` or `strtod`. -/
def is_numeric (f : optparse_func) : Bool :=
  f = optparse_func.handle_int || f = optparse_func.handle_unsigned
    || f = optparse_func.handle_double

/-- Whether a record of the trace is a call of a numeric converter with a
null argument. -/
def null_numeric_call (c : optparse_opt × Option CStr) : Bool :=
  is_numeric c.1.func && c.2.isNone

/-- The world that a step of the loop leaves. -/
def step_world : Step → World
  | Step.next _ w => w
  | Step.stop _ _ w => w

/-- A registry with one `int` option `--num`, registered with a null
placeholder and then marked optional through its handle. -/
def optional_int_registry : optparse :=
  let r := optparse_add_int (optparse_new (some "prog".toList) none) ('n'.toNat : Int)
    (some "num".toList) none 0 0 none
  via_handle r.1 r.2 optparse_arg_optional

/-- The parsers that the interface of `optparse.h` can build when
`optparse_arg_optional` is applied to no int, unsigned or double option:
`optparse_new`, then any sequence of registrations and of
`optparse_arg_optional` through a handle whose record has another converter. -/
inductive Registered : optparse → Prop where
  | new (progname arg_summary : Option CStr) : Registered (optparse_new progname arg_summary)
  | add_help {p : optparse} : Registered p → Registered (optparse_add_help p).1
  | add_set {p : optparse} (short_opt : Int) (long_opt : Option CStr) (value : Int) (ptr : Nat)
      (help : Option CStr) :
      Registered p → Registered (optparse_add_set p short_opt long_opt value ptr help).1
  | add_int {p : optparse} (short_opt : Int) (long_opt arg_desc : Option CStr) (base ptr : Nat)
      (help : Option CStr) :
      Registered p → Registered (optparse_add_int p short_opt long_opt arg_desc base ptr help).1
  | add_unsigned {p : optparse} (short_opt : Int) (long_opt arg_desc : Option CStr)
      (base ptr : Nat) (help : Option CStr) :
      Registered p →
        Registered (optparse_add_unsigned p short_opt long_opt arg_desc base ptr help).1
  | add_double {p : optparse} (short_opt : Int) (long_opt arg_desc : Option CStr) (ptr : Nat)
      (help : Option CStr) :
      Registered p → Registered (optparse_add_double p short_opt long_opt arg_desc ptr help).1
  | add_string {p : optparse} (short_opt : Int) (long_opt arg_desc : Option CStr) (ptr : Nat)
      (help : Option CStr) :
      Registered p → Registered (optparse_add_string p short_opt long_opt arg_desc ptr help).1
  | arg_optional {p : optparse} (h : Nat) :
      Registered p → is_numeric (nth_opt p h).func = false →
        Registered (via_handle p h optparse_arg_optional)

/-- A registry with one `int` option `-n`, `--num` registered with base 1, a
base that `strtol` does not support. -/
def base_one_registry : optparse :=
  (optparse_add_int (optparse_new (some "prog".toList) none) ('n'.toNat : Int)
    (some "num".toList) (some "NUM".toList) 1 0 none).1

/-! # Theorems -/

/-! ## Cursor discipline of the scanning loop -/

theorem short_opt_loop_cursor (strtod : CStr → Nat × Nat) (p : optparse) (c : Char)
    (opts : List optparse_opt) (w : World) :
    (short_opt_loop strtod p c opts w).2.1 = p
      ∨ (p.argi < p.argc
          ∧ (short_opt_loop strtod p c opts w).2.1 = { p with argi := p.argi + 1 }) := by
  induction opts with
  | nil => left; rfl
  | cons o rest ih =>
    unfold short_opt_loop
    split_ifs with h1 h2 h3
    · left; rfl
    · right; exact ⟨by omega, rfl⟩
    · left; rfl
    · exact ih

theorem after_handler_next {r : Status × optparse × World} {p : optparse} {w : World}
    (h : after_handler r = Step.next p w) : r.2.1 = p ∧ r.2.2 = w := by
  unfold after_handler at h
  split at h
  · split_ifs at h
    cases h; exact ⟨rfl, rfl⟩
  · cases h

theorem loop_iter_next_cursor {strtod : CStr → Nat × Nat} {p p' : optparse} {w w' : World}
    (h : loop_iter strtod p w = Step.next p' w') :
    ∃ j, p' = { p with argi := j } ∧ p.argi < j ∧ j ≤ p.argc := by
  simp only [loop_iter] at h
  split_ifs at h with h1 h2 h3 h4 h5
  · have := (after_handler_next h).1
    exact ⟨p.argi + 1, this.symm, by omega, by omega⟩
  · have h6 := (after_handler_next h).1
    rcases short_opt_loop_cursor strtod { p with argi := p.argi + 1 } (cget (p.argv.getD p.argi []) 1)
      p.options w with h7 | ⟨h7, h8⟩
    · refine ⟨p.argi + 1, ?_, by omega, by omega⟩
      rw [← h6]; exact h7
    · refine ⟨p.argi + 1 + 1, ?_, by omega, ?_⟩
      · rw [← h6]; exact h8
      · simpa using h7

/-! ## Fuel -/

theorem parse_loop_total (strtod : CStr → Nat × Nat) :
    ∀ (fuel : Nat) (p : optparse) (w : World), p.argc - p.argi < fuel →
      ∃ r, parse_loop strtod fuel p w = some r := by
  intro fuel
  induction fuel with
  | zero => intro p w h; omega
  | succ f ih =>
    intro p w h
    unfold parse_loop
    cases hs : loop_iter strtod p w with
    | stop st p' w' => exact ⟨_, rfl⟩
    | next p' w' =>
      obtain ⟨j, hj, h1, h2⟩ := loop_iter_next_cursor hs
      simp only
      apply ih
      subst hj
      simp only
      omega

theorem parse_loop_mono (strtod : CStr → Nat × Nat) :
    ∀ (fuel k : Nat) (p : optparse) (w : World) (r : Status × optparse × World),
      parse_loop strtod fuel p w = some r → parse_loop strtod (fuel + k) p w = some r := by
  intro fuel
  induction fuel with
  | zero => intro k p w r h; simp [parse_loop] at h
  | succ f ih =>
    intro k p w r h
    rw [show f + 1 + k = (f + k) + 1 by omega]
    unfold parse_loop at h ⊢
    cases hs : loop_iter strtod p w with
    | stop st p' w' => rw [hs] at h; exact h
    | next p' w' => rw [hs] at h; exact ih k p' w' r h

/-- With enough fuel the result of the loop does not depend on the fuel. -/
theorem parse_loop_fuel (strtod : CStr → Nat × Nat) (f1 f2 : Nat) (p : optparse) (w : World)
    (h1 : p.argc - p.argi < f1) (h2 : p.argc - p.argi < f2) :
    parse_loop strtod f1 p w = parse_loop strtod f2 p w := by
  obtain ⟨r1, e1⟩ := parse_loop_total strtod f1 p w h1
  obtain ⟨r2, e2⟩ := parse_loop_total strtod f2 p w h2
  have a := parse_loop_mono strtod f1 f2 p w r1 e1
  have b := parse_loop_mono strtod f2 f1 p w r2 e2
  rw [Nat.add_comm] at b
  rw [e1, e2, ← a, b]

/-- The entry point always produces a result: the fuel it passes is enough. -/
theorem optparse_parse_total (strtod : CStr → Nat × Nat) (parser : optparse)
    (argv : List CStr) (w : World) : ∃ r, optparse_parse strtod parser argv w = some r := by
  apply parse_loop_total
  simp [scan_start]

/-! ## Reaching a token -/

theorem scan_steps_cursor (strtod : CStr → Nat × Nat) :
    ∀ (n : Nat) (p p' : optparse) (w w' : World),
      scan_steps strtod n p w = some (p', w') →
        ∃ j, p' = { p with argi := j } ∧ p.argi ≤ j ∧ (n = 0 ∨ j ≤ p.argc) := by
  intro n
  induction n with
  | zero =>
    intro p p' w w' h
    simp only [scan_steps, Option.some.injEq, Prod.mk.injEq] at h
    exact ⟨p.argi, h.1.symm, le_refl _, Or.inl rfl⟩
  | succ n ih =>
    intro p p' w w' h
    unfold scan_steps at h
    cases hs : loop_iter strtod p w with
    | stop st p1 w1 => rw [hs] at h; cases h
    | next p1 w1 =>
      rw [hs] at h
      obtain ⟨j, hj, h1, h2⟩ := loop_iter_next_cursor hs
      obtain ⟨k, hk, h3, h4⟩ := ih p1 p' w1 w' h
      subst hj
      refine ⟨k, hk, ?_, Or.inr ?_⟩
      · simp only at h3; omega
      · rcases h4 with h4 | h4
        · subst h4
          simp only [scan_steps, Option.some.injEq, Prod.mk.injEq] at h
          have : k = j := by rw [hk] at h; have := congrArg optparse.argi h.1; simpa using this.symm
          omega
        · simpa using h4

theorem parse_loop_of_steps (strtod : CStr → Nat × Nat) :
    ∀ (n f : Nat) (p p' : optparse) (w w' : World),
      scan_steps strtod n p w = some (p', w') →
        parse_loop strtod (n + f) p w = parse_loop strtod f p' w' := by
  intro n
  induction n with
  | zero =>
    intro f p p' w w' h
    simp only [scan_steps, Option.some.injEq, Prod.mk.injEq] at h
    rw [h.1, h.2, Nat.zero_add]
  | succ n ih =>
    intro f p p' w w' h
    unfold scan_steps at h
    rw [show n + 1 + f = (n + f) + 1 by omega]
    conv_lhs => unfold parse_loop
    cases hs : loop_iter strtod p w with
    | stop st p1 w1 => rw [hs] at h; cases h
    | next p1 w1 => rw [hs] at h; exact ih f p1 p' w1 w' h

/-- A reached index lies within the argument vector. -/
theorem reaches_le {strtod : CStr → Nat × Nat} {parser : optparse} {argv : List CStr}
    {w0 w : World} {i : Nat} (h : Reaches strtod parser argv w0 i w) : i ≤ argv.length := by
  obtain ⟨n, hn⟩ := h
  obtain ⟨j, hj, h1, h2⟩ := scan_steps_cursor strtod n _ _ _ _ hn
  have : i = j := by have := congrArg optparse.argi hj; simpa using this
  subst this
  rcases h2 with h2 | h2
  · subst h2
    simp only [scan_steps, Option.some.injEq, Prod.mk.injEq] at hn
    have := congrArg optparse.argi hn.1
    simp [scan_start] at this
    omega
  · simpa [scan_start] using h2

/-- Once scanning has reached index `i`, the result of `optparse_parse` is the
result of the loop resumed there. -/
theorem parse_of_reaches {strtod : CStr → Nat × Nat} {parser : optparse} {argv : List CStr}
    {w0 w : World} {i : Nat} (h : Reaches strtod parser argv w0 i w) (f : Nat)
    (hf : argv.length - i < f) :
    optparse_parse strtod parser argv w0
      = parse_loop strtod f { scan_start parser argv with argi := i } w := by
  obtain ⟨n, hn⟩ := h
  have h1 := parse_loop_of_steps strtod n f _ _ _ _ hn
  obtain ⟨r, hr⟩ := parse_loop_total strtod f { scan_start parser argv with argi := i } w
    (by simpa [scan_start] using hf)
  obtain ⟨r', hr'⟩ := optparse_parse_total strtod parser argv w0
  rw [hr] at h1
  rw [hr, hr']
  have a := parse_loop_mono strtod (n + f) (argv.length + 1) _ _ r h1
  have b := parse_loop_mono strtod (argv.length + 1) (n + f) _ _ r' hr'
  rw [Nat.add_comm] at b
  rw [a] at b
  exact b.symm

theorem reaches_start (strtod : CStr → Nat × Nat) (parser : optparse) (argv : List CStr)
    (w0 : World) : Reaches strtod parser argv w0 0 w0 :=
  ⟨0, rfl⟩

theorem scan_steps_snoc (strtod : CStr → Nat × Nat) :
    ∀ (n : Nat) (p p1 p2 : optparse) (w w1 w2 : World),
      scan_steps strtod n p w = some (p1, w1) → loop_iter strtod p1 w1 = Step.next p2 w2 →
        scan_steps strtod (n + 1) p w = some (p2, w2) := by
  intro n
  induction n with
  | zero =>
    intro p p1 p2 w w1 w2 h hs
    simp only [scan_steps, Option.some.injEq, Prod.mk.injEq] at h
    simp [scan_steps, h.1, h.2, hs]
  | succ n ih =>
    intro p p1 p2 w w1 w2 h hs
    unfold scan_steps at h ⊢
    cases hq : loop_iter strtod p w with
    | stop st p1 w1 => rw [hq] at h; cases h
    | next p3 w3 => rw [hq] at h; exact ih p3 p1 p2 w3 w1 w2 h hs

/-- An iteration that continues extends the reach of the scan. -/
theorem reaches_next {strtod : CStr → Nat × Nat} {parser : optparse} {argv : List CStr}
    {w0 w w' : World} {i j : Nat} (h : Reaches strtod parser argv w0 i w)
    (hs : loop_iter strtod { scan_start parser argv with argi := i } w
      = Step.next { scan_start parser argv with argi := j } w') :
    Reaches strtod parser argv w0 j w' := by
  obtain ⟨n, hn⟩ := h
  exact ⟨n + 1, scan_steps_snoc strtod n _ _ _ _ _ _ hn hs⟩

/-! ## Resolution of a token to the first matching option -/

theorem short_opt_loop_skip (strtod : CStr → Nat × Nat) (p : optparse) (c : Char)
    (pre rest : List optparse_opt) (w : World)
    (hpre : ∀ o' ∈ pre, short_hit c o' = false) :
    short_opt_loop strtod p c (pre ++ rest) w = short_opt_loop strtod p c rest w := by
  induction pre with
  | nil => rfl
  | cons o' pre ih =>
    have h1 := hpre o' (List.mem_cons_self _ _)
    simp only [short_hit, decide_eq_false_iff_not] at h1
    rw [List.cons_append, short_opt_loop, if_neg h1]
    exact ih (fun o ho => hpre o (List.mem_cons_of_mem _ ho))

theorem long_opt_loop_skip (strtod : CStr → Nat × Nat) (p : optparse) (s : CStr)
    (pre rest : List optparse_opt) (w : World)
    (hpre : ∀ o' ∈ pre, long_hit s o' = false) :
    long_opt_loop strtod p s (pre ++ rest) w = long_opt_loop strtod p s rest w := by
  induction pre with
  | nil => rfl
  | cons o' pre ih =>
    have h1 := hpre o' (List.mem_cons_self _ _)
    simp only [long_hit, decide_eq_false_iff_not, not_and_or, not_or] at h1
    rw [List.cons_append, long_opt_loop]
    have ih' := ih (fun o ho => hpre o (List.mem_cons_of_mem _ ho))
    rcases h1 with h1 | ⟨h1, h2⟩
    · rw [if_neg h1]; exact ih'
    · split_ifs <;> exact ih'

/-- Equal leading characters compare equal under `strncmp`. -/
theorem strncmp_append (l rest : CStr) : strncmp (l ++ rest) l l.length = 0 := by
  induction l with
  | nil => rfl
  | cons c l ih =>
    simp only [List.cons_append, List.length_cons, strncmp, cget, List.getD_cons_zero,
      ne_eq, not_true_eq_false, if_false, List.drop_succ_cons, List.drop_zero]
    split_ifs
    · rfl
    · exact ih

theorem cget_length (a : CStr) : cget a a.length = NUL := by
  simp [cget, List.getD_eq_getElem?_getD]

theorem cget_append_length (l rest : CStr) : cget (l ++ rest) l.length = cget rest 0 := by
  simp [cget, List.getD_eq_getElem?_getD, List.getElem?_append_right]

theorem drop_append_succ {α : Type} (l : List α) (c : α) (rest : List α) :
    (l ++ c :: rest).drop (l.length + 1) = rest := by
  induction l with
  | nil => rfl
  | cons a l ih => simp

/-! ## One iteration at a given token -/

theorem getD_of_get? {argv : List CStr} {i : Nat} {tok : CStr} (h : argv.get? i = some tok) :
    argv.getD i [] = tok ∧ i < argv.length := by
  rw [List.get?_eq_some] at h
  obtain ⟨hl, hg⟩ := h
  refine ⟨?_, hl⟩
  rw [List.getD_eq_getElem?_getD, List.getElem?_eq_getElem hl]
  simpa using hg

/-- At a token `-c...` with `c` neither a dash nor the terminator the loop
calls `handle_short_opt` with `c`. -/
theorem loop_iter_short (strtod : CStr → Nat × Nat) (p : optparse) (w : World) (c : Char)
    (rest : CStr) (hi : p.argi < p.argc) (htok : p.argv.getD p.argi [] = '-' :: c :: rest)
    (hc : c ≠ '-') (hn : c ≠ NUL) :
    loop_iter strtod p w
      = after_handler (handle_short_opt strtod { p with argi := p.argi + 1 } c w) := by
  simp only [loop_iter, hi, htok, if_true, cget, List.getD_cons_zero, List.getD_cons_succ,
    hc, hn, and_false, if_false]

/-- At a token `--s` with `s` non-empty the loop calls `handle_long_opt` with `s`. -/
theorem loop_iter_long (strtod : CStr → Nat × Nat) (p : optparse) (w : World) (s : CStr)
    (hi : p.argi < p.argc) (htok : p.argv.getD p.argi [] = '-' :: '-' :: s)
    (hn : cget s 0 ≠ NUL) :
    loop_iter strtod p w
      = after_handler ((handle_long_opt strtod { p with argi := p.argi + 1 } s w).1,
          { p with argi := p.argi + 1 },
          (handle_long_opt strtod { p with argi := p.argi + 1 } s w).2) := by
  have hn' : List.getD s 0 NUL ≠ NUL := hn
  simp only [loop_iter, hi, htok, if_true, cget, List.getD_cons_zero, List.getD_cons_succ,
    and_self, hn', if_false, List.drop_succ_cons, List.drop_zero]

theorem short_hit_ne_nul {c : Char} {o : optparse_opt} (h : short_hit c o = true) : c ≠ NUL := by
  simp only [short_hit, decide_eq_true_eq] at h
  intro hc
  subst hc
  exact h.1 h.2.symm

/-- A stop of the loop at a reached index is the result of `optparse_parse`. -/
theorem parse_of_stop {strtod : CStr → Nat × Nat} {parser : optparse} {argv : List CStr}
    {w0 w w' : World} {i : Nat} {st : Status} {p' : optparse}
    (h : Reaches strtod parser argv w0 i w)
    (hs : loop_iter strtod { scan_start parser argv with argi := i } w = Step.stop st p' w') :
    optparse_parse strtod parser argv w0 = some (st, p', w') := by
  rw [parse_of_reaches h (argv.length - i + 1) (by omega), parse_loop, hs]

theorem after_handler_ret_nonzero (v : Int) (hv : v ≠ 0) (p : optparse) (w : World) :
    after_handler (Status.ret v, p, w) = Step.next p w := by
  simp [after_handler, hv]

theorem after_handler_ret_zero (p : optparse) (w : World) :
    after_handler (Status.ret 0, p, w) = Step.stop (Status.ret (-1)) p w := by
  simp [after_handler]

/-- At a token that does not begin with a dash the loop rewinds and stops. -/
theorem loop_iter_positional (strtod : CStr → Nat × Nat) (p : optparse) (w : World)
    (hi : p.argi < p.argc) (htok : cget (p.argv.getD p.argi []) 0 ≠ '-') :
    loop_iter strtod p w = Step.stop (Status.ret p.argi) p w := by
  simp only [loop_iter, hi, htok, if_true, false_and, if_false, Nat.add_sub_cancel]

/-- The iteration at a token `-c` whose character first matches an option that
takes an argument, when a further token follows. -/
theorem short_arg_iter (strtod : CStr → Nat × Nat) (parser : optparse) (argv : List CStr)
    (w : World) (i : Nat) (c : Char) (pre post : List optparse_opt) (o : optparse_opt)
    (rest tok : CStr)
    (hopts : parser.options = pre ++ o :: post)
    (hpre : ∀ o' ∈ pre, short_hit c o' = false)
    (hhit : short_hit c o = true)
    (harg : o.arg_desc.isSome = true)
    (hc : c ≠ '-')
    (htok : argv.get? i = some ('-' :: c :: rest))
    (hnext : argv.get? (i + 1) = some tok) :
    loop_iter strtod { scan_start parser argv with argi := i } w
      = after_handler
          ((invoke strtod { scan_start parser argv with argi := i + 2 } o (some tok) w).1,
           { scan_start parser argv with argi := i + 2 },
           (invoke strtod { scan_start parser argv with argi := i + 2 } o (some tok) w).2) := by
  obtain ⟨ht, hi⟩ := getD_of_get? htok
  obtain ⟨hn, hi'⟩ := getD_of_get? hnext
  rw [loop_iter_short strtod _ w c rest (by simpa [scan_start] using hi)
    (by simpa [scan_start] using ht) hc (short_hit_ne_nul hhit)]
  have hhit' := hhit
  simp only [short_hit, decide_eq_true_eq] at hhit'
  have hge : ¬ (i + 1 ≥ argv.length) := by omega
  simp only [handle_short_opt, scan_start, hopts]
  rw [short_opt_loop_skip strtod _ c pre (o :: post) w hpre, short_opt_loop]
  simp only [hhit', harg, hge, hn, ne_eq, not_false_eq_true, and_self, if_true, if_false]

/-! ## Independence from the tokens that are not read -/

/-- The converters read only the program name, the summary and the registry
of the parser record. -/
theorem invoke_static (strtod : CStr → Nat × Nat) (p1 p2 : optparse) (o : optparse_opt)
    (arg : Option CStr) (w : World) (h1 : p1.progname = p2.progname)
    (h2 : p1.arg_summary = p2.arg_summary) (h3 : p1.options = p2.options) :
    invoke strtod p1 o arg w = invoke strtod p2 o arg w := by
  unfold invoke
  cases o.func <;>
    simp only [optparse_handle_help, optparse_handle_set, optparse_handle_int,
      optparse_handle_unsigned, optparse_handle_double, optparse_handle_string, optparse_help,
      invalid_number_msg, h1, h2, h3]

theorem long_opt_loop_static (strtod : CStr → Nat × Nat) (p1 p2 : optparse) (s : CStr)
    (opts : List optparse_opt) (w : World) (h1 : p1.progname = p2.progname)
    (h2 : p1.arg_summary = p2.arg_summary) (h3 : p1.options = p2.options) :
    long_opt_loop strtod p1 s opts w = long_opt_loop strtod p2 s opts w := by
  induction opts with
  | nil => simp only [long_opt_loop, long_invalid_msg, h1]
  | cons o rest ih =>
    simp only [long_opt_loop, long_requires_msg, long_no_arg_msg, h1, ih,
      invoke_static strtod p1 p2 o _ w h1 h2 h3]

/-- Replacing the argument vector by one that agrees with it up to the token
after the cursor does not change what `handle_short_opt` does. -/
theorem short_opt_loop_retarget (strtod : CStr → Nat × Nat) (p : optparse) (c : Char)
    (opts : List optparse_opt) (w : World) (argv2 : List CStr)
    (h1 : p.argi < p.argc) (h2 : p.argi < argv2.length)
    (h3 : p.argv.getD p.argi [] = argv2.getD p.argi []) :
    short_opt_loop strtod { p with argc := argv2.length, argv := argv2 } c opts w
      = ((short_opt_loop strtod p c opts w).1,
         { (short_opt_loop strtod p c opts w).2.1 with argc := argv2.length, argv := argv2 },
         (short_opt_loop strtod p c opts w).2.2) := by
  induction opts with
  | nil => simp only [short_opt_loop, short_invalid_msg]
  | cons o rest ih =>
    simp only [short_opt_loop]
    have e1 : ¬ (p.argi ≥ p.argc) := by omega
    have e2 : ¬ (p.argi ≥ argv2.length) := by omega
    split_ifs with a b
    · simp only [h3]
      rw [invoke_static strtod { p with argc := argv2.length, argv := argv2, argi := p.argi + 1 }
        { p with argi := p.argi + 1 } o _ w rfl rfl rfl]
    · simp only
      rw [invoke_static strtod { p with argc := argv2.length, argv := argv2 } p o _ w rfl rfl rfl]
    · exact ih

theorem after_handler_swap {st : Status} {p q : optparse} {w w' : World}
    (h : after_handler (st, p, w) = Step.next q w') (p2 : optparse) :
    p = q ∧ after_handler (st, p2, w) = Step.next p2 w' := by
  unfold after_handler at h ⊢
  cases st with
  | ret v =>
    simp only at h ⊢
    split_ifs at h ⊢ with hv
    cases h
    exact ⟨rfl, rfl⟩
  | exited c => cases h
  | crashed => cases h

theorem loop_iter_retarget (strtod : CStr → Nat × Nat) (p q : optparse) (w w' : World)
    (argv2 : List CStr) (k : Nat)
    (hk : p.argi < k) (hk1 : k < p.argc) (hk2 : k < argv2.length)
    (hagree : ∀ m, m ≤ k → p.argv.getD m [] = argv2.getD m [])
    (h : loop_iter strtod p w = Step.next q w') :
    loop_iter strtod { p with argc := argv2.length, argv := argv2 } w
      = Step.next { q with argc := argv2.length, argv := argv2 } w' := by
  have hi : p.argi < p.argc := by omega
  have hi2 : p.argi < argv2.length := by omega
  have htok := hagree p.argi (by omega)
  simp only [loop_iter, hi, if_true] at h
  simp only [loop_iter, hi2, if_true, ← htok]
  split_ifs at h ⊢ with a b c d
  · simp only [handle_long_opt] at h ⊢
    rw [long_opt_loop_static strtod { p with argc := argv2.length, argv := argv2, argi := p.argi + 1 }
      { p with argi := p.argi + 1 } _ _ w rfl rfl rfl]
    obtain ⟨e, h'⟩ := after_handler_swap h
      { p with argc := argv2.length, argv := argv2, argi := p.argi + 1 }
    rw [h', ← e]
  · simp only [handle_short_opt] at h ⊢
    have hs := short_opt_loop_retarget strtod { p with argi := p.argi + 1 }
      (cget (p.argv.getD p.argi []) 1) p.options w argv2 (by simpa using (by omega : p.argi + 1 < p.argc))
      (by simpa using (by omega : p.argi + 1 < argv2.length)) (hagree (p.argi + 1) (by omega))
    rw [hs]
    obtain ⟨e, h'⟩ := after_handler_swap h
      { (short_opt_loop strtod { p with argi := p.argi + 1 }
          (cget (p.argv.getD p.argi []) 1) p.options w).2.1 with
        argc := argv2.length, argv := argv2 }
    rw [h', ← e]

theorem scan_steps_retarget (strtod : CStr → Nat × Nat) (argv2 : List CStr) (k : Nat) :
    ∀ (n : Nat) (p p' : optparse) (w w' : World),
      scan_steps strtod n p w = some (p', w') → p'.argi ≤ k → k < p.argc → k < argv2.length →
      (∀ m, m ≤ k → p.argv.getD m [] = argv2.getD m []) →
      scan_steps strtod n { p with argc := argv2.length, argv := argv2 } w
        = some ({ p' with argc := argv2.length, argv := argv2 }, w') := by
  intro n
  induction n with
  | zero =>
    intro p p' w w' h _ _ _ _
    simp only [scan_steps, Option.some.injEq, Prod.mk.injEq] at h ⊢
    rw [h.1, h.2]
    exact ⟨rfl, rfl⟩
  | succ n ih =>
    intro p p' w w' h hk hk1 hk2 hagree
    unfold scan_steps at h ⊢
    cases hs : loop_iter strtod p w with
    | stop st p1 w1 => rw [hs] at h; cases h
    | next p1 w1 =>
      rw [hs] at h
      simp only at h
      obtain ⟨j, hj, h1, h2⟩ := loop_iter_next_cursor hs
      obtain ⟨j', hj', h3, _⟩ := scan_steps_cursor strtod n _ _ _ _ h
      have e1 : p1.argi = j := by rw [hj]
      have e2 : p'.argi = j' := by rw [hj']
      have e3 : p1.argc = p.argc := by rw [hj]
      have e4 : p1.argv = p.argv := by rw [hj]
      rw [loop_iter_retarget strtod p p1 w w1 argv2 k (by omega) hk1 hk2 hagree hs]
      exact ih p1 p' w1 w' h hk (by omega) hk2 (by rw [e4]; exact hagree)

/-- What scanning does before it reaches index `i` depends only on the tokens
up to index `i`. -/
theorem reaches_retarget {strtod : CStr → Nat × Nat} {parser : optparse} {argv argv2 : List CStr}
    {w0 w : World} {i : Nat} (h : Reaches strtod parser argv w0 i w)
    (h1 : i < argv.length) (h2 : i < argv2.length)
    (hagree : ∀ m, m ≤ i → argv.getD m [] = argv2.getD m []) :
    Reaches strtod parser argv2 w0 i w := by
  obtain ⟨n, hn⟩ := h
  exact ⟨n, scan_steps_retarget strtod argv2 i n _ _ _ _ hn (le_refl _) h1 h2 hagree⟩

theorem getD_append_agree (pre : List CStr) (t : CStr) (tail tail' : List CStr) (m : Nat)
    (hm : m ≤ pre.length) :
    (pre ++ t :: tail).getD m [] = (pre ++ t :: tail').getD m [] := by
  simp only [List.getD_eq_getElem?_getD, List.getElem?_append]
  split_ifs with h
  · rfl
  · have : m - pre.length = 0 := by omega
    rw [this]
    simp

/-! ## A short option and its argument -/

theorem help_num_registry_options (progname : Option CStr) (ptr : Nat) :
    (help_num_registry progname ptr).options = [help_opt, num_opt ptr] := by
  rfl

/-- Every indirect call appends exactly its own record to the trace. -/
theorem invoke_calls (strtod : CStr → Nat × Nat) (p : optparse) (o : optparse_opt)
    (arg : Option CStr) (w : World) :
    (invoke strtod p o arg w).2.calls = w.calls ++ [(o, arg)] := by
  unfold invoke
  cases o.func <;> cases arg <;>
    simp only [optparse_handle_help, optparse_handle_set, optparse_handle_int,
      optparse_handle_unsigned, optparse_handle_double, optparse_handle_string, eprint] <;>
    first
      | rfl
      | (split_ifs <;> rfl)
      | (split <;> first | rfl | (split_ifs <;> rfl))

/-- In the scenario registry the tokens `-n 0x10` store 16 and leave the
cursor at index 2. -/
theorem scenario_reaches (strtod : CStr → Nat × Nat) (progname : Option CStr) (ptr : Nat)
    (tail : List CStr) (w1 : World) :
    Reaches strtod (help_num_registry progname ptr) ("-n".toList :: "0x10".toList :: tail) w1 2
      { w1 with
        ints := store w1.ints ptr 16
        calls := w1.calls ++ [(num_opt ptr, some "0x10".toList)] } := by
  have h0 := reaches_start strtod (help_num_registry progname ptr)
    ("-n".toList :: "0x10".toList :: tail) w1
  have hit := short_arg_iter strtod (help_num_registry progname ptr)
    ("-n".toList :: "0x10".toList :: tail) w1 0 'n' [_] [] _ [] "0x10".toList
    (help_num_registry_options progname ptr) (by decide) (by rfl) rfl (by decide) rfl rfl
  have hinv : invoke strtod
      { scan_start (help_num_registry progname ptr)
          ("-n".toList :: "0x10".toList :: tail) with argi := 0 + 2 }
      (num_opt ptr) (some "0x10".toList) w1
      = (Status.ret 1, { w1 with
          ints := store w1.ints ptr 16
          calls := w1.calls ++ [(num_opt ptr, some "0x10".toList)] }) := by
    simp only [invoke, optparse_handle_int, num_opt]
    rfl
  rw [hinv, after_handler_ret_nonzero 1 (by decide)] at hit
  exact reaches_next h0 hit

/-- C1. When scanning reaches a token `-c` at index `i`, the character `c`
first matches an option `o` that takes an argument, and a token follows at
index `i + 1`, then the iteration calls the converter of `o` with that whole
token as its argument and the cursor at `i + 2`; when the converter reports
success, scanning resumes at index `i + 2`.  In the scenario registry, parsing
`-n 0x10 a b` writes 16 to the `int` cell and returns 2. -/
theorem short_option_consumes_next_token (strtod : CStr → Nat × Nat) (parser : optparse)
    (argv : List CStr) (w0 w : World) (i : Nat) (c : Char) (pre post : List optparse_opt)
    (o : optparse_opt) (tok : CStr)
    (hreach : Reaches strtod parser argv w0 i w)
    (hopts : parser.options = pre ++ o :: post)
    (hpre : ∀ o' ∈ pre, short_hit c o' = false)
    (hhit : short_hit c o = true)
    (harg : o.arg_desc.isSome = true)
    (hc : c ≠ '-')
    (htok : argv.get? i = some ['-', c])
    (hnext : argv.get? (i + 1) = some tok) :
    let r := invoke strtod { scan_start parser argv with argi := i + 2 } o (some tok) w
    loop_iter strtod { scan_start parser argv with argi := i } w
        = after_handler (r.1, { scan_start parser argv with argi := i + 2 }, r.2)
      ∧ r.2.calls = w.calls ++ [(o, some tok)]
      ∧ (∀ v, r.1 = Status.ret v → v ≠ 0 → Reaches strtod parser argv w0 (i + 2) r.2)
      ∧ (∀ (progname : Option CStr) (ptr : Nat) (w1 : World),
          ∃ p' w', optparse_parse strtod (help_num_registry progname ptr)
              ["-n".toList, "0x10".toList, "a".toList, "b".toList] w1
            = some (Status.ret 2, p', w') ∧ w'.ints ptr = 16) := by
  intro r
  have hiter := short_arg_iter strtod parser argv w i c pre post o [] tok hopts hpre hhit harg hc
    htok hnext
  refine ⟨hiter, ?_, ?_, ?_⟩
  · exact invoke_calls strtod _ o (some tok) w
  · intro v hv hv0
    apply reaches_next hreach
    rw [hiter]
    have : (r.1, ({ scan_start parser argv with argi := i + 2 } : optparse), r.2)
        = (Status.ret v, ({ scan_start parser argv with argi := i + 2 } : optparse), r.2) := by
      rw [hv]
    show after_handler (r.1, _, r.2) = _
    rw [this, after_handler_ret_nonzero v hv0]
  · intro progname ptr w1
    have h2 := scenario_reaches strtod progname ptr ["a".toList, "b".toList] w1
    have hstop := loop_iter_positional strtod
      { scan_start (help_num_registry progname ptr)
          ["-n".toList, "0x10".toList, "a".toList, "b".toList] with argi := 2 }
      { w1 with
        ints := store w1.ints ptr 16
        calls := w1.calls ++ [(num_opt ptr, some "0x10".toList)] }
      (by simp [scan_start]) (by simp [scan_start, cget])
    exact ⟨_, _, parse_of_stop h2 hstop, by simp [store]⟩

/-- C1, at a concrete input: in the scenario registry the token `-n` at index
0 takes the token `0x10` and scanning resumes at index 2. -/
theorem short_option_consumes_next_token_witness :
    Reaches strtod0 (help_num_registry none 0)
      ["-n".toList, "0x10".toList, "a".toList, "b".toList] world0 2
      (invoke strtod0
        { scan_start (help_num_registry none 0)
            ["-n".toList, "0x10".toList, "a".toList, "b".toList] with argi := 0 + 2 }
        (num_opt 0) (some "0x10".toList) world0).2 :=
  (short_option_consumes_next_token strtod0 (help_num_registry none 0)
    ["-n".toList, "0x10".toList, "a".toList, "b".toList] world0 world0 0 'n' [help_opt] []
    (num_opt 0) "0x10".toList (reaches_start _ _ _ _) (help_num_registry_options none 0)
    (by decide) (by decide) rfl (by decide) rfl rfl).2.2.1 1 (by decide) (by decide)

/-! ## The returned index -/

theorem after_handler_stop_ret {x : Status × optparse × World} {r : Int} {p' : optparse}
    {w' : World} (h : after_handler x = Step.stop (Status.ret r) p' w') : r = -1 := by
  obtain ⟨st, p, w⟩ := x
  unfold after_handler at h
  cases st with
  | ret v =>
    simp only at h
    split_ifs at h
    cases h
    rfl
  | exited c => cases h
  | crashed => cases h

theorem loop_iter_stop_ret {strtod : CStr → Nat × Nat} {p p' : optparse} {w w' : World}
    {r : Int} (h : loop_iter strtod p w = Step.stop (Status.ret r) p' w')
    (hle : p.argi ≤ p.argc) :
    r = -1 ∨ ((p.argi : Int) ≤ r ∧ r ≤ (p.argc : Int)) := by
  simp only [loop_iter] at h
  split_ifs at h with h1 h2 h3 h4 h5
  · cases h; right; constructor <;> omega
  · exact Or.inl (after_handler_stop_ret h)
  · cases h; right; constructor <;> omega
  · exact Or.inl (after_handler_stop_ret h)
  · cases h; right; constructor <;> omega
  · cases h; right; constructor <;> omega

theorem parse_loop_ret_bounds (strtod : CStr → Nat × Nat) :
    ∀ (fuel : Nat) (p p' : optparse) (w w' : World) (r : Int),
      parse_loop strtod fuel p w = some (Status.ret r, p', w') → p.argi ≤ p.argc →
        r = -1 ∨ ((p.argi : Int) ≤ r ∧ r ≤ (p.argc : Int)) := by
  intro fuel
  induction fuel with
  | zero => intro p p' w w' r h; simp [parse_loop] at h
  | succ f ih =>
    intro p p' w w' r h hle
    unfold parse_loop at h
    cases hs : loop_iter strtod p w with
    | stop st p1 w1 =>
      rw [hs] at h
      simp only [Option.some.injEq, Prod.mk.injEq] at h
      obtain ⟨e1, e2, e3⟩ := h
      subst e1 e2 e3
      exact loop_iter_stop_ret hs hle
    | next p1 w1 =>
      rw [hs] at h
      obtain ⟨j, hj, h1, h2⟩ := loop_iter_next_cursor hs
      subst hj
      rcases ih _ p' w1 w' r h h2 with h3 | ⟨h3, h4⟩
      · exact Or.inl h3
      · right
        simp only at h3 h4
        omega

/-- When the cursor has reached the end of the vector the loop condition fails. -/
theorem loop_iter_end (strtod : CStr → Nat × Nat) (p : optparse) (w : World)
    (h : ¬ p.argi < p.argc) : loop_iter strtod p w = Step.stop (Status.ret p.argi) p w := by
  simp only [loop_iter, h, if_false]

theorem getD_append_length (pre : List CStr) (t : CStr) (tail : List CStr) :
    (pre ++ t :: tail).getD pre.length [] = t := by
  induction pre with
  | nil => rfl
  | cons a pre ih => simpa using ih

/-- C2. When scanning reaches index `i = pre.length` and the token `t` there
does not begin with a dash (the empty token included), `optparse_parse`
returns `i` with the world as it was on arrival, whatever tokens follow `t`:
the returned index and every destination are the same for every choice of the
tokens after index `i`.  Every non-negative result `r` of `optparse_parse`
satisfies `0 ≤ r ≤ argc`; and when scanning reaches the end of the vector the
result is `argc`. -/
theorem scan_stops_at_first_positional (strtod : CStr → Nat × Nat) (parser : optparse)
    (pre : List CStr) (t : CStr) (tail : List CStr) (w0 w : World)
    (hreach : Reaches strtod parser (pre ++ t :: tail) w0 pre.length w)
    (ht : cget t 0 ≠ '-') :
    (∀ tail' : List CStr,
        optparse_parse strtod parser (pre ++ t :: tail') w0
          = some (Status.ret pre.length,
              { scan_start parser (pre ++ t :: tail') with argi := pre.length }, w))
      ∧ (∀ (argv : List CStr) (w1 w' : World) (r : Int) (p' : optparse),
          optparse_parse strtod parser argv w1 = some (Status.ret r, p', w') → r ≠ -1 →
            0 ≤ r ∧ r ≤ (argv.length : Int))
      ∧ (∀ (argv : List CStr) (w1 w' : World),
          Reaches strtod parser argv w1 argv.length w' →
            optparse_parse strtod parser argv w1
              = some (Status.ret argv.length,
                  { scan_start parser argv with argi := argv.length }, w')) := by
  refine ⟨?_, ?_, ?_⟩
  · intro tail'
    have hr : Reaches strtod parser (pre ++ t :: tail') w0 pre.length w :=
      reaches_retarget hreach (by simp) (by simp)
        (fun m hm => getD_append_agree pre t tail tail' m hm)
    apply parse_of_stop hr
    have := loop_iter_positional strtod
      { scan_start parser (pre ++ t :: tail') with argi := pre.length } w
      (by simp [scan_start])
      (by simpa only [scan_start, getD_append_length] using ht)
    simpa using this
  · intro argv w1 w' r p' h hr
    have := parse_loop_ret_bounds strtod _ _ p' w1 w' r h (by simp [scan_start])
    rcases this with h1 | ⟨h1, h2⟩
    · exact absurd h1 hr
    · simp only [scan_start] at h1 h2
      exact ⟨by omega, h2⟩
  · intro argv w1 w' h
    apply parse_of_stop h
    have := loop_iter_end strtod { scan_start parser argv with argi := argv.length } w'
      (by simp [scan_start])
    simpa using this

/-- C2, at a concrete input: after `-n 0x10` the token `a` at index 2 ends the
scan, and the option-like tokens placed after it change nothing. -/
theorem scan_stops_at_first_positional_witness :
    optparse_parse strtod0 (help_num_registry none 0)
        (["-n".toList, "0x10".toList] ++ "a".toList :: ["--help".toList, "-n".toList]) world0
      = some (Status.ret 2,
          { scan_start (help_num_registry none 0)
              (["-n".toList, "0x10".toList] ++ "a".toList :: ["--help".toList, "-n".toList])
            with argi := 2 },
          { world0 with
            ints := store world0.ints 0 16
            calls := world0.calls ++ [(num_opt 0, some "0x10".toList)] }) :=
  (scan_stops_at_first_positional strtod0 (help_num_registry none 0)
    ["-n".toList, "0x10".toList] "a".toList ["b".toList] world0 _
    (scenario_reaches strtod0 none 0 ["a".toList, "b".toList] world0) (by decide)).1
    ["--help".toList, "-n".toList]

/-! ## The delimiter and the lone dash -/

/-- At a token `--` or `-` the loop stops with the cursor past the token. -/
theorem loop_iter_dashes (strtod : CStr → Nat × Nat) (p : optparse) (w : World)
    (hi : p.argi < p.argc)
    (htok : p.argv.getD p.argi [] = ['-', '-'] ∨ p.argv.getD p.argi [] = ['-']) :
    loop_iter strtod p w
      = Step.stop (Status.ret ((p.argi + 1 : Nat) : Int)) { p with argi := p.argi + 1 } w := by
  rcases htok with htok | htok
  · simp only [loop_iter, hi, htok, if_true, cget, List.getD_cons_zero, List.getD_cons_succ,
      List.getD_nil, and_self]
  · have hne : NUL ≠ '-' := by decide
    simp only [loop_iter, hi, htok, if_true, cget, List.getD_cons_zero, List.getD_cons_succ,
      List.getD_nil, hne, and_false, if_false]

/-- C3. When scanning reaches the token `--` at index `i = pre.length`,
`optparse_parse` returns `i + 1` with the world as it was on arrival: the
delimiter is consumed, the positionals are the tokens after it, and whatever
those tokens are, none of them is processed. -/
theorem double_dash_is_consumed (strtod : CStr → Nat × Nat) (parser : optparse)
    (pre tail : List CStr) (w0 w : World)
    (hreach : Reaches strtod parser (pre ++ "--".toList :: tail) w0 pre.length w) :
    ∀ tail' : List CStr,
      optparse_parse strtod parser (pre ++ "--".toList :: tail') w0
          = some (Status.ret ((pre.length + 1 : Nat) : Int),
              { scan_start parser (pre ++ "--".toList :: tail') with argi := pre.length + 1 }, w)
        ∧ (pre ++ "--".toList :: tail').drop (pre.length + 1) = tail' := by
  intro tail'
  have hr : Reaches strtod parser (pre ++ "--".toList :: tail') w0 pre.length w :=
    reaches_retarget hreach (by simp) (by simp)
      (fun m hm => getD_append_agree pre _ tail tail' m hm)
  refine ⟨?_, drop_append_succ pre _ tail'⟩
  apply parse_of_stop hr
  have := loop_iter_dashes strtod
    { scan_start parser (pre ++ "--".toList :: tail') with argi := pre.length } w
    (by simp [scan_start])
    (Or.inl (by simp only [scan_start, getD_append_length]; rfl))
  simpa using this

/-- C3, at a concrete input: after `-n 0x10` the delimiter at index 2 is
consumed and the option-like token after it is left alone. -/
theorem double_dash_is_consumed_witness :
    optparse_parse strtod0 (help_num_registry none 0)
        (["-n".toList, "0x10".toList] ++ "--".toList :: ["--help".toList]) world0
      = some (Status.ret ((2 + 1 : Nat) : Int),
          { scan_start (help_num_registry none 0)
              (["-n".toList, "0x10".toList] ++ "--".toList :: ["--help".toList])
            with argi := 2 + 1 },
          { world0 with
            ints := store world0.ints 0 16
            calls := world0.calls ++ [(num_opt 0, some "0x10".toList)] }) :=
  ((double_dash_is_consumed strtod0 (help_num_registry none 0)
    ["-n".toList, "0x10".toList] ["x".toList] world0 _
    (scenario_reaches strtod0 none 0 ["--".toList, "x".toList] world0))
    ["--help".toList]).1

/-- C4 (what the code does). A lone `-` as the first token is consumed:
`optparse_parse` returns 1, not 0, so the caller never sees the `-`. -/
theorem lone_dash_is_consumed (strtod : CStr → Nat × Nat) (parser : optparse) (w : World) :
    optparse_parse strtod parser ["-".toList, "file".toList] w
      = some (Status.ret 1,
          { scan_start parser ["-".toList, "file".toList] with argi := 1 }, w) := by
  apply parse_of_stop (reaches_start strtod parser _ w)
  have := loop_iter_dashes strtod
    { scan_start parser ["-".toList, "file".toList] with argi := 0 } w
    (by simp [scan_start]) (Or.inr rfl)
  simpa using this

/-! ## Long options -/

/-- The iteration at a token `--s` resolved by the first option whose long
form compares equal: the two branches of `handle_long_opt` on that option. -/
theorem long_first (strtod : CStr → Nat × Nat) (p : optparse) (s : CStr)
    (pre post : List optparse_opt) (o : optparse_opt) (w : World)
    (hopts : p.options = pre ++ o :: post)
    (hpre : ∀ o' ∈ pre, long_hit s o' = false)
    (hcmp : strncmp s (o.long_opt.getD []) o.long_opt_len = 0) :
    handle_long_opt strtod p s w
      = if cget s o.long_opt_len = NUL then
          if o.arg_desc.isSome ∧ o.flags &&& OPTPARSE_FLAG_OPTIONAL = 0 then
            (Status.ret 0, eprint w (long_requires_msg p s))
          else invoke strtod p o none w
        else if cget s o.long_opt_len = '=' then
          if o.arg_desc.isNone then (Status.ret 0, eprint w (long_no_arg_msg p s))
          else invoke strtod p o (some (s.drop (o.long_opt_len + 1))) w
        else long_opt_loop strtod p s post w := by
  rw [handle_long_opt, hopts, long_opt_loop_skip strtod p s pre (o :: post) w hpre, long_opt_loop,
    if_pos hcmp]

/-- The token `--L` resolved by an option with long form `L`. -/
theorem long_bare_iter (strtod : CStr → Nat × Nat) (parser : optparse) (argv : List CStr)
    (w : World) (i : Nat) (pre post : List optparse_opt) (o : optparse_opt) (L : CStr)
    (hopts : parser.options = pre ++ o :: post)
    (hL : o.long_opt = some L) (hlen : o.long_opt_len = strlen L) (hL0 : cget L 0 ≠ NUL)
    (htok : argv.get? i = some ("--".toList ++ L))
    (hpre : ∀ o' ∈ pre, long_hit L o' = false) :
    loop_iter strtod { scan_start parser argv with argi := i } w
      = after_handler
          ((if o.arg_desc.isSome ∧ o.flags &&& OPTPARSE_FLAG_OPTIONAL = 0 then
              (Status.ret 0, eprint w (long_requires_msg parser L))
            else invoke strtod { scan_start parser argv with argi := i + 1 } o none w).1,
           { scan_start parser argv with argi := i + 1 },
           (if o.arg_desc.isSome ∧ o.flags &&& OPTPARSE_FLAG_OPTIONAL = 0 then
              (Status.ret 0, eprint w (long_requires_msg parser L))
            else invoke strtod { scan_start parser argv with argi := i + 1 } o none w).2) := by
  obtain ⟨ht, hi⟩ := getD_of_get? htok
  rw [loop_iter_long strtod _ w L (by simpa [scan_start] using hi)
    (by simpa [scan_start] using ht) hL0]
  have hcmp : strncmp L (o.long_opt.getD []) o.long_opt_len = 0 := by
    have := strncmp_append L []
    rw [hL, hlen]
    simpa [strlen] using this
  have hend : cget L o.long_opt_len = NUL := by
    rw [hlen]
    exact cget_length L
  rw [long_first strtod _ L pre post o w (by simpa [scan_start] using hopts) hpre hcmp,
    if_pos hend]
  rfl

/-- The token `--L=x` resolved by an option with long form `L`. -/
theorem long_value_iter (strtod : CStr → Nat × Nat) (parser : optparse) (argv : List CStr)
    (w : World) (i : Nat) (pre post : List optparse_opt) (o : optparse_opt) (L x : CStr)
    (hopts : parser.options = pre ++ o :: post)
    (hL : o.long_opt = some L) (hlen : o.long_opt_len = strlen L) (hL0 : cget L 0 ≠ NUL)
    (htok : argv.get? i = some ("--".toList ++ L ++ '=' :: x))
    (hpre : ∀ o' ∈ pre, long_hit (L ++ '=' :: x) o' = false) :
    loop_iter strtod { scan_start parser argv with argi := i } w
      = after_handler
          ((if o.arg_desc.isNone then
              (Status.ret 0, eprint w (long_no_arg_msg parser (L ++ '=' :: x)))
            else invoke strtod { scan_start parser argv with argi := i + 1 } o (some x) w).1,
           { scan_start parser argv with argi := i + 1 },
           (if o.arg_desc.isNone then
              (Status.ret 0, eprint w (long_no_arg_msg parser (L ++ '=' :: x)))
            else invoke strtod { scan_start parser argv with argi := i + 1 } o (some x) w).2) := by
  obtain ⟨ht, hi⟩ := getD_of_get? htok
  have hs0 : cget (L ++ '=' :: x) 0 ≠ NUL := by
    cases L with
    | nil => exact absurd rfl hL0
    | cons a l => simpa [cget] using hL0
  rw [loop_iter_long strtod _ w (L ++ '=' :: x) (by simpa [scan_start] using hi)
    (by simpa [scan_start] using ht) hs0]
  have hcmp : strncmp (L ++ '=' :: x) (o.long_opt.getD []) o.long_opt_len = 0 := by
    rw [hL, hlen]
    exact strncmp_append L _
  have hend : cget (L ++ '=' :: x) o.long_opt_len = '=' := by
    rw [hlen]
    exact cget_append_length L _
  have hne : ('=' : Char) ≠ NUL := by decide
  rw [long_first strtod _ _ pre post o w (by simpa [scan_start] using hopts) hpre hcmp,
    hend, if_neg hne, if_pos rfl, hlen]
  simp only [strlen, drop_append_succ]
  rfl

/-! ## Flags and required arguments of long options -/

/-- A stop of the loop expressed through `after_handler` on a zero result. -/
theorem parse_of_fail {strtod : CStr → Nat × Nat} {parser : optparse} {argv : List CStr}
    {w0 w w' : World} {i : Nat} {p' : optparse}
    (h : Reaches strtod parser argv w0 i w)
    (hs : loop_iter strtod { scan_start parser argv with argi := i } w
      = after_handler (Status.ret 0, p', w')) :
    optparse_parse strtod parser argv w0 = some (Status.ret (-1), p', w') := by
  rw [after_handler_ret_zero] at hs
  exact parse_of_stop h hs

/-- The set converter always reports success and stores the option's value. -/
theorem invoke_set (strtod : CStr → Nat × Nat) (p : optparse) (o : optparse_opt)
    (arg : Option CStr) (w : World) (h : o.func = optparse_func.handle_set) :
    invoke strtod p o arg w
      = (Status.ret 1, { w with
          ints := store w.ints o.data o.set_value
          calls := w.calls ++ [(o, arg)] }) := by
  simp only [invoke, h, optparse_handle_set]

/-- C5. For an option `o` that takes no argument and has the non-empty long
form `L`, reached as the first match: the token `--L=x` makes `optparse_parse`
return -1 after printing the diagnostic `does not take an argument`, with no
converter call and no write; the token `--L` calls the converter of `o` with a
null argument, and scanning continues at the next index when the converter
reports success, as the set converter always does, with the constant stored. -/
theorem long_flag_argument_handling (strtod : CStr → Nat × Nat) (parser : optparse)
    (argv : List CStr) (w0 w : World) (i : Nat) (pre post : List optparse_opt)
    (o : optparse_opt) (L : CStr)
    (hreach : Reaches strtod parser argv w0 i w)
    (hopts : parser.options = pre ++ o :: post)
    (hL : o.long_opt = some L) (hlen : o.long_opt_len = strlen L) (hL0 : cget L 0 ≠ NUL)
    (hflag : o.arg_desc = none) :
    (∀ x : CStr, argv.get? i = some ("--".toList ++ L ++ '=' :: x) →
        (∀ o' ∈ pre, long_hit (L ++ '=' :: x) o' = false) →
        optparse_parse strtod parser argv w0
          = some (Status.ret (-1), { scan_start parser argv with argi := i + 1 },
              eprint w (long_no_arg_msg parser (L ++ '=' :: x))))
      ∧ (argv.get? i = some ("--".toList ++ L) → (∀ o' ∈ pre, long_hit L o' = false) →
          loop_iter strtod { scan_start parser argv with argi := i } w
              = after_handler
                  ((invoke strtod { scan_start parser argv with argi := i + 1 } o none w).1,
                   { scan_start parser argv with argi := i + 1 },
                   (invoke strtod { scan_start parser argv with argi := i + 1 } o none w).2)
            ∧ (invoke strtod { scan_start parser argv with argi := i + 1 } o none w).2.calls
                = w.calls ++ [(o, none)]
            ∧ (∀ v, (invoke strtod { scan_start parser argv with argi := i + 1 } o
                  none w).1 = Status.ret v → v ≠ 0 →
                Reaches strtod parser argv w0 (i + 1)
                  (invoke strtod { scan_start parser argv with argi := i + 1 } o none w).2)
            ∧ (o.func = optparse_func.handle_set →
                Reaches strtod parser argv w0 (i + 1)
                  { w with
                    ints := store w.ints o.data o.set_value
                    calls := w.calls ++ [(o, none)] })) := by
  refine ⟨?_, ?_⟩
  · intro x htok hpre
    have h := long_value_iter strtod parser argv w i pre post o L x hopts hL hlen hL0 htok hpre
    simp only [hflag, Option.isNone_none, if_true] at h
    exact parse_of_fail hreach h
  · intro htok hpre
    have h := long_bare_iter strtod parser argv w i pre post o L hopts hL hlen hL0 htok hpre
    simp only [hflag, Option.isSome_none, Bool.false_eq_true, false_and, if_false] at h
    refine ⟨h, invoke_calls strtod _ o none w, ?_, ?_⟩
    · intro v hv hv0
      apply reaches_next hreach
      rw [h]
      generalize invoke strtod _ o none w = r at hv ⊢
      obtain ⟨st, w'⟩ := r
      simp only at hv
      subst hv
      exact after_handler_ret_nonzero v hv0 _ _
    · intro hset
      apply reaches_next hreach
      rw [h, invoke_set strtod _ o none w hset]
      exact after_handler_ret_nonzero 1 (by decide) _ _

/-- C5, at a concrete input: in the registry of the test program the token
`--1=x` is rejected. -/
theorem long_flag_argument_handling_witness :
    optparse_parse strtod0 test_registry ["--1=x".toList] world0
      = some (Status.ret (-1), { scan_start test_registry ["--1=x".toList] with argi := 0 + 1 },
          eprint world0 (long_no_arg_msg test_registry ("1".toList ++ '=' :: "x".toList))) :=
  (long_flag_argument_handling strtod0 test_registry ["--1=x".toList] world0 world0 0
    (test_registry.options.take 1) (test_registry.options.drop 2) (nth_opt test_registry 1)
    "1".toList (reaches_start _ _ _ _) (by decide) (by decide) (by decide) (by decide)
    (by decide)).1 "x".toList rfl (by decide)

/-- C6. For an option `o` that takes an argument, is not marked optional and
has the non-empty long form `L`, reached as the first match: the bare token
`--L` makes `optparse_parse` return -1 after printing the diagnostic
`requires an argument`, with no converter call and no write; the token `--L=`
calls the converter of `o` with the empty string (not a null pointer), and
scanning continues at the next index when the converter reports success. -/
theorem long_required_argument_handling (strtod : CStr → Nat × Nat) (parser : optparse)
    (argv : List CStr) (w0 w : World) (i : Nat) (pre post : List optparse_opt)
    (o : optparse_opt) (L : CStr)
    (hreach : Reaches strtod parser argv w0 i w)
    (hopts : parser.options = pre ++ o :: post)
    (hL : o.long_opt = some L) (hlen : o.long_opt_len = strlen L) (hL0 : cget L 0 ≠ NUL)
    (harg : o.arg_desc.isSome = true)
    (hreq : o.flags &&& OPTPARSE_FLAG_OPTIONAL = 0) :
    (argv.get? i = some ("--".toList ++ L) → (∀ o' ∈ pre, long_hit L o' = false) →
        optparse_parse strtod parser argv w0
          = some (Status.ret (-1), { scan_start parser argv with argi := i + 1 },
              eprint w (long_requires_msg parser L)))
      ∧ (argv.get? i = some ("--".toList ++ L ++ "=".toList) →
          (∀ o' ∈ pre, long_hit (L ++ "=".toList) o' = false) →
          loop_iter strtod { scan_start parser argv with argi := i } w
              = after_handler
                  ((invoke strtod { scan_start parser argv with argi := i + 1 } o (some []) w).1,
                   { scan_start parser argv with argi := i + 1 },
                   (invoke strtod { scan_start parser argv with argi := i + 1 } o (some []) w).2)
            ∧ (invoke strtod { scan_start parser argv with argi := i + 1 } o (some []) w).2.calls
                = w.calls ++ [(o, some [])]
            ∧ (∀ v, (invoke strtod { scan_start parser argv with argi := i + 1 } o
                  (some []) w).1 = Status.ret v → v ≠ 0 →
                Reaches strtod parser argv w0 (i + 1)
                  (invoke strtod { scan_start parser argv with argi := i + 1 } o
                    (some []) w).2)) := by
  refine ⟨?_, ?_⟩
  · intro htok hpre
    have h := long_bare_iter strtod parser argv w i pre post o L hopts hL hlen hL0 htok hpre
    simp only [harg, hreq, and_self, if_true] at h
    exact parse_of_fail hreach h
  · intro htok hpre
    have h := long_value_iter strtod parser argv w i pre post o L [] hopts hL hlen hL0 htok hpre
    have hn : o.arg_desc.isNone = false := by
      cases hd : o.arg_desc with
      | none => rw [hd] at harg; cases harg
      | some d => rfl
    simp only [hn, Bool.false_eq_true, if_false] at h
    refine ⟨h, invoke_calls strtod _ o (some []) w, ?_⟩
    intro v hv hv0
    apply reaches_next hreach
    rw [h]
    generalize invoke strtod _ o (some []) w = r at hv ⊢
    obtain ⟨st, w'⟩ := r
    simp only at hv
    subst hv
    exact after_handler_ret_nonzero v hv0 _ _

/-- C6, at a concrete input: in the registry of the test program the bare
token `--string` is rejected. -/
theorem long_required_argument_handling_witness :
    optparse_parse strtod0 test_registry ["--string".toList] world0
      = some (Status.ret (-1),
          { scan_start test_registry ["--string".toList] with argi := 0 + 1 },
          eprint world0 (long_requires_msg test_registry "string".toList)) :=
  (long_required_argument_handling strtod0 test_registry ["--string".toList] world0 world0 0
    (test_registry.options.take 9) (test_registry.options.drop 10) (nth_opt test_registry 9)
    "string".toList (reaches_start _ _ _ _) (by decide) (by decide) (by decide) (by decide)
    (by decide) (by decide)).1 rfl (by decide)

/-! ## Short options without their argument -/

/-- The iteration at a token `-c...` that is the last one, when `c` first
matches an option that takes an argument. -/
theorem short_last_iter (strtod : CStr → Nat × Nat) (parser : optparse) (argv : List CStr)
    (w : World) (i : Nat) (c : Char) (pre post : List optparse_opt) (o : optparse_opt)
    (rest : CStr)
    (hopts : parser.options = pre ++ o :: post)
    (hpre : ∀ o' ∈ pre, short_hit c o' = false)
    (hhit : short_hit c o = true)
    (harg : o.arg_desc.isSome = true)
    (hc : c ≠ '-')
    (htok : argv.get? i = some ('-' :: c :: rest))
    (hlast : i + 1 = argv.length) :
    loop_iter strtod { scan_start parser argv with argi := i } w
      = after_handler (Status.ret 0, { scan_start parser argv with argi := i + 1 },
          eprint w (short_requires_msg parser c)) := by
  obtain ⟨ht, hi⟩ := getD_of_get? htok
  rw [loop_iter_short strtod _ w c rest (by simpa [scan_start] using hi)
    (by simpa [scan_start] using ht) hc (short_hit_ne_nul hhit)]
  have hhit' := hhit
  simp only [short_hit, decide_eq_true_eq] at hhit'
  have hge : i + 1 ≥ argv.length := by omega
  simp only [handle_short_opt, scan_start, hopts]
  rw [short_opt_loop_skip strtod _ c pre (o :: post) w hpre, short_opt_loop]
  simp only [hhit', harg, hge, ne_eq, not_false_eq_true, and_self, if_true]
  rfl

/-- C7. When scanning reaches the last token, that token is `-c`, and `c`
first matches an option that takes an argument, `optparse_parse` returns -1
after printing the diagnostic `requires an argument`; no converter is called
and no destination is written (the world changes only on `stderr`). -/
theorem short_option_missing_argument (strtod : CStr → Nat × Nat) (parser : optparse)
    (argv : List CStr) (w0 w : World) (i : Nat) (c : Char) (pre post : List optparse_opt)
    (o : optparse_opt)
    (hreach : Reaches strtod parser argv w0 i w)
    (hopts : parser.options = pre ++ o :: post)
    (hpre : ∀ o' ∈ pre, short_hit c o' = false)
    (hhit : short_hit c o = true)
    (harg : o.arg_desc.isSome = true)
    (hc : c ≠ '-')
    (htok : argv.get? i = some ['-', c])
    (hlast : i + 1 = argv.length) :
    optparse_parse strtod parser argv w0
      = some (Status.ret (-1), { scan_start parser argv with argi := i + 1 },
          { w with stderr := w.stderr ++ short_requires_msg parser c }) :=
  parse_of_fail hreach
    (short_last_iter strtod parser argv w i c pre post o [] hopts hpre hhit harg hc htok hlast)

/-- C7, at a concrete input: in the scenario registry, `-n` after `-n 0x10`
is the last token and fails; the cell keeps the 16 stored before. -/
theorem short_option_missing_argument_witness :
    optparse_parse strtod0 (help_num_registry none 0)
        ["-n".toList, "0x10".toList, "-n".toList] world0
      = some (Status.ret (-1),
          { scan_start (help_num_registry none 0)
              ["-n".toList, "0x10".toList, "-n".toList] with argi := 2 + 1 },
          { world0 with
            ints := store world0.ints 0 16
            calls := world0.calls ++ [(num_opt 0, some "0x10".toList)]
            stderr := world0.stderr ++ short_requires_msg (help_num_registry none 0) 'n' }) :=
  short_option_missing_argument strtod0 (help_num_registry none 0)
    ["-n".toList, "0x10".toList, "-n".toList] world0 _ 2 'n' [help_opt] [] (num_opt 0)
    (scenario_reaches strtod0 none 0 ["-n".toList] world0)
    (help_num_registry_options none 0) (by decide) (by decide) rfl (by decide) rfl rfl

/-! ## Optional arguments -/

theorem optional_flag_set (o : optparse_opt) :
    ¬ ((optparse_arg_optional o).flags &&& OPTPARSE_FLAG_OPTIONAL = 0) := by
  simp [optparse_arg_optional, OPTPARSE_FLAG_OPTIONAL]

/-- The string converter always reports success and stores its argument. -/
theorem invoke_string (strtod : CStr → Nat × Nat) (p : optparse) (o : optparse_opt)
    (arg : Option CStr) (w : World) (h : o.func = optparse_func.handle_string) :
    invoke strtod p o arg w
      = (Status.ret 1, { w with
          strs := store w.strs o.data arg
          calls := w.calls ++ [(o, arg)] }) := by
  simp only [invoke, h, optparse_handle_string]

/-- C8, where the claim fails.  The claim lets bare `--L` succeed for every
option marked optional.  The registry here holds the int option `-n`, `--num`,
marked optional through its handle: it has both forms and takes an argument.
The token `--num` is accepted by the scan, but the int converter is called
with a null argument, which it hands to `strtol`: the run does not succeed, it
has undefined behaviour, and the cell keeps its initial value. -/
theorem optional_int_bare_long_form_crashes :
    (optparse_parse strtod0 optional_int_registry ["--num".toList] world0).map
        (fun r => (r.1, r.2.2.ints 0, r.2.2.stderr, r.2.2.calls.map (fun c => c.2)))
      = some (Status.crashed, 0, [], [none])
    ∧ (nth_opt optional_int_registry 0).short_opt = ('n'.toNat : Int)
    ∧ (nth_opt optional_int_registry 0).long_opt = some "num".toList
    ∧ (nth_opt optional_int_registry 0).arg_desc = some "NUM".toList
    ∧ (nth_opt optional_int_registry 0).flags = OPTPARSE_FLAG_OPTIONAL
    ∧ (nth_opt optional_int_registry 0).func = optparse_func.handle_int := by
  decide

/-- C8, amended.  Let `o` be an option with short character `c` and long form
`L` that takes an argument and to which `optparse_arg_optional` was applied,
reached as the first match.  The bare token `--L` is accepted and calls the
converter of `o` with a null argument: the string converter then stores null
and scanning continues, whereas a numeric converter (int, unsigned, double)
has undefined behaviour and the run ends there.  The token `--L=v` calls the
converter with `v`.  Through the short form the argument is still required:
`-c` as the last token fails with `requires an argument`, and `-c` followed by
a token calls the converter with that token and moves the cursor past it. -/
theorem optional_argument_long_form_only (strtod : CStr → Nat × Nat) (parser : optparse)
    (argv : List CStr) (w0 w : World) (i : Nat) (c : Char) (pre post : List optparse_opt)
    (o0 : optparse_opt) (L : CStr)
    (hreach : Reaches strtod parser argv w0 i w)
    (hopts : parser.options = pre ++ optparse_arg_optional o0 :: post)
    (hL : o0.long_opt = some L) (hlen : o0.long_opt_len = strlen L) (hL0 : cget L 0 ≠ NUL)
    (harg : o0.arg_desc.isSome = true)
    (hhit : short_hit c o0 = true)
    (hc : c ≠ '-') :
    (argv.get? i = some ("--".toList ++ L) → (∀ o' ∈ pre, long_hit L o' = false) →
        loop_iter strtod { scan_start parser argv with argi := i } w
            = after_handler
                ((invoke strtod { scan_start parser argv with argi := i + 1 }
                    (optparse_arg_optional o0) none w).1,
                 { scan_start parser argv with argi := i + 1 },
                 (invoke strtod { scan_start parser argv with argi := i + 1 }
                    (optparse_arg_optional o0) none w).2)
          ∧ (o0.func = optparse_func.handle_string →
              Reaches strtod parser argv w0 (i + 1)
                { w with
                  strs := store w.strs o0.data none
                  calls := w.calls ++ [(optparse_arg_optional o0, none)] })
          ∧ (is_numeric o0.func = true →
              optparse_parse strtod parser argv w0
                = some (Status.crashed, { scan_start parser argv with argi := i + 1 },
                    { w with calls := w.calls ++ [(optparse_arg_optional o0, none)] })))
      ∧ (∀ v : CStr, argv.get? i = some ("--".toList ++ L ++ '=' :: v) →
          (∀ o' ∈ pre, long_hit (L ++ '=' :: v) o' = false) →
          loop_iter strtod { scan_start parser argv with argi := i } w
            = after_handler
                ((invoke strtod { scan_start parser argv with argi := i + 1 }
                    (optparse_arg_optional o0) (some v) w).1,
                 { scan_start parser argv with argi := i + 1 },
                 (invoke strtod { scan_start parser argv with argi := i + 1 }
                    (optparse_arg_optional o0) (some v) w).2))
      ∧ (argv.get? i = some ['-', c] → i + 1 = argv.length →
          (∀ o' ∈ pre, short_hit c o' = false) →
          optparse_parse strtod parser argv w0
            = some (Status.ret (-1), { scan_start parser argv with argi := i + 1 },
                eprint w (short_requires_msg parser c)))
      ∧ (∀ tok : CStr, argv.get? i = some ['-', c] → argv.get? (i + 1) = some tok →
          (∀ o' ∈ pre, short_hit c o' = false) →
          loop_iter strtod { scan_start parser argv with argi := i } w
            = after_handler
                ((invoke strtod { scan_start parser argv with argi := i + 2 }
                    (optparse_arg_optional o0) (some tok) w).1,
                 { scan_start parser argv with argi := i + 2 },
                 (invoke strtod { scan_start parser argv with argi := i + 2 }
                    (optparse_arg_optional o0) (some tok) w).2)) := by
  have hL' : (optparse_arg_optional o0).long_opt = some L := hL
  have hlen' : (optparse_arg_optional o0).long_opt_len = strlen L := hlen
  have harg' : (optparse_arg_optional o0).arg_desc.isSome = true := harg
  have hhit' : short_hit c (optparse_arg_optional o0) = true := hhit
  refine ⟨?_, ?_, ?_, ?_⟩
  · intro htok hpre
    have h := long_bare_iter strtod parser argv w i pre post _ L hopts hL' hlen' hL0 htok hpre
    simp only [optional_flag_set, and_false, if_false] at h
    refine ⟨h, ?_, ?_⟩
    · intro hstr
      apply reaches_next hreach
      rw [h, invoke_string strtod _ (optparse_arg_optional o0) none w hstr]
      exact after_handler_ret_nonzero 1 (by decide) _ _
    · intro hnum
      apply parse_of_stop hreach
      have hinv : invoke strtod { scan_start parser argv with argi := i + 1 }
          (optparse_arg_optional o0) none w
          = (Status.crashed,
              { w with calls := w.calls ++ [(optparse_arg_optional o0, none)] }) := by
        have hf : (optparse_arg_optional o0).func = o0.func := rfl
        unfold invoke
        rw [hf]
        cases hfo : o0.func <;> rw [hfo] at hnum <;>
          first
            | exact absurd hnum (by decide)
            | rfl
      rw [h, hinv]
      rfl
  · intro v htok hpre
    have h := long_value_iter strtod parser argv w i pre post _ L v hopts hL' hlen' hL0 htok hpre
    have hn : (optparse_arg_optional o0).arg_desc.isNone = false := by
      show o0.arg_desc.isNone = false
      cases hd : o0.arg_desc with
      | none => rw [hd] at harg; cases harg
      | some d => rfl
    simp only [hn, Bool.false_eq_true, if_false] at h
    exact h
  · intro htok hlast hpre
    exact parse_of_fail hreach
      (short_last_iter strtod parser argv w i c pre post _ [] hopts hpre hhit' harg' hc htok hlast)
  · intro tok htok hnext hpre
    exact short_arg_iter strtod parser argv w i c pre post _ [] tok hopts hpre hhit' harg' hc
      htok hnext

/-- C8 amended, at a concrete input: with the string option `-o`, `--ostring`
marked optional, the token `-o` as the last token still fails, while the token
`--ostring` stores null and scanning goes on. -/
theorem optional_argument_long_form_only_witness :
    optparse_parse strtod0 optional_registry ["-o".toList] world0
        = some (Status.ret (-1),
            { scan_start optional_registry ["-o".toList] with argi := 0 + 1 },
            eprint world0 (short_requires_msg optional_registry 'o'))
      ∧ Reaches strtod0 optional_registry ["--ostring".toList] world0 (0 + 1)
          { world0 with
            strs := store world0.strs 0 none
            calls := world0.calls ++ [(nth_opt optional_registry 0, none)] } :=
  ⟨(optional_argument_long_form_only strtod0 optional_registry ["-o".toList] world0 world0 0 'o'
      [] []
      { short_opt := 111
        long_opt := some "ostring".toList
        long_opt_len := 7
        arg_desc := some "OPT".toList
        help := none
        flags := 0
        func := optparse_func.handle_string
        data := 0
        num_base := 0
        set_value := 0 }
      "ostring".toList (reaches_start _ _ _ _) (by decide) (by decide) (by decide) (by decide)
      (by decide) (by decide) (by decide)).2.2.1 rfl rfl (by decide),
    ((optional_argument_long_form_only strtod0 optional_registry ["--ostring".toList] world0
      world0 0 'o' [] []
      { short_opt := 111
        long_opt := some "ostring".toList
        long_opt_len := 7
        arg_desc := some "OPT".toList
        help := none
        flags := 0
        func := optparse_func.handle_string
        data := 0
        num_base := 0
        set_value := 0 }
      "ostring".toList (reaches_start _ _ _ _) (by decide) (by decide) (by decide) (by decide)
      (by decide) (by decide) (by decide)).1 rfl (by decide)).2.1 rfl⟩

/-! ## Decimal texts and the libc parsers -/

theorem digitChar_value (m : Nat) (hm : m < 10) :
    digit_value (Nat.digitChar m) = some m ∧ (Nat.digitChar m = '0' ↔ m = 0)
      ∧ isspace (Nat.digitChar m) = false ∧ Nat.digitChar m ≠ '-' ∧ Nat.digitChar m ≠ '+' := by
  interval_cases m <;> decide

/-- The digits printed for `n` in front of `ds`: a first digit that is zero
only for `n = 0`, and a run that `scan_digits` reads back as `n`. -/
theorem toDigitsCore_scan :
    ∀ (fuel n : Nat) (ds : List Char), n < fuel →
      ∃ (m : Nat) (l : List Char),
        Nat.toDigitsCore 10 fuel n ds = Nat.digitChar m :: l ++ ds ∧ m < 10
          ∧ (m = 0 → n = 0 ∧ l = []) ∧ (n = 0 → m = 0)
          ∧ ∀ (acc k : Nat) (rest : List Char),
              scan_digits 10 (Nat.digitChar m :: l ++ rest) acc k
                = scan_digits 10 rest (acc * 10 ^ (l.length + 1) + n) (k + (l.length + 1)) := by
  intro fuel
  induction fuel with
  | zero => intro n ds h; omega
  | succ f ih =>
    intro n ds h
    unfold Nat.toDigitsCore
    by_cases h0 : n / 10 = 0
    · have hn : n < 10 := by omega
      refine ⟨n, [], ?_, hn, ?_, ?_, ?_⟩
      · simp [h0, Nat.mod_eq_of_lt hn]
      · intro hm; exact ⟨hm, rfl⟩
      · intro hn0; exact hn0
      · intro acc k rest
        simp [scan_digits, (digitChar_value n hn).1, hn]
    · obtain ⟨m, l, e, hm, h1, h2, h3⟩ := ih (n / 10) (Nat.digitChar (n % 10) :: ds) (by omega)
      have hd : n % 10 < 10 := Nat.mod_lt _ (by decide)
      refine ⟨m, l ++ [Nat.digitChar (n % 10)], ?_, hm, ?_, ?_, ?_⟩
      · simp [h0, e]
      · intro hm0; exact absurd (h1 hm0).1 h0
      · intro hn0; rw [hn0] at h0; simp at h0
      · intro acc k rest
        have := h3 acc k (Nat.digitChar (n % 10) :: rest)
        simp only [List.cons_append, List.append_assoc, List.singleton_append,
          List.nil_append] at this ⊢
        rw [this]
        simp only [scan_digits, (digitChar_value (n % 10) hd).1, hd, if_true, List.length_append,
          List.length_singleton]
        have e1 : (acc * 10 ^ (l.length + 1) + n / 10) * 10 + n % 10
            = acc * 10 ^ (l.length + 1 + 1) + n := by
          have hdm := Nat.div_add_mod n 10
          rw [pow_succ _ (l.length + 1), Nat.add_mul, Nat.mul_assoc]
          omega
        have e2 : k + (l.length + 1) + 1 = k + (l.length + 1 + 1) := by omega
        rw [e1, e2]

/-- The subject sequence of a run of decimal digits as printed by
`Nat.toDigits`, with or without a leading minus sign, in base 0 or 10. -/
theorem parse_subject_digits (m : Nat) (l : List Char) (n base : Nat)
    (hbase : base = 0 ∨ base = 10) (hm : m < 10)
    (h1 : m = 0 → n = 0 ∧ l = [])
    (h3 : ∀ (acc k : Nat) (rest : List Char),
      scan_digits 10 (Nat.digitChar m :: l ++ rest) acc k
        = scan_digits 10 rest (acc * 10 ^ (l.length + 1) + n) (k + (l.length + 1))) :
    parse_subject (Nat.digitChar m :: l) base = (false, n, l.length + 1)
      ∧ parse_subject ('-' :: Nat.digitChar m :: l) base = (true, n, l.length + 2) := by
  by_cases hm0 : m = 0
  · obtain ⟨hn, hl⟩ := h1 hm0
    subst hm0 hn hl
    rcases hbase with hb | hb <;> subst hb <;> exact ⟨by decide, by decide⟩
  · obtain ⟨_, hz, hsp, hmi, hpl⟩ := digitChar_value m hm
    have hz' : Nat.digitChar m ≠ '0' := fun h => hm0 (hz.1 h)
    have hscan : scan_digits 10 (Nat.digitChar m :: l) 0 0 = (n, l.length + 1) := by
      have := h3 0 0 []
      rw [List.append_nil] at this
      rw [this]
      simp [scan_digits]
    have hminus_sp : isspace '-' = false := by decide
    have hvalid : ¬ ¬ (base = 0 ∨ 2 ≤ base ∧ base ≤ 36) := by
      rcases hbase with hb | hb <;> subst hb <;> simp
    have hb10 : (if base = 0 then 10 else base) = 10 := by
      rcases hbase with hb | hb <;> subst hb <;> simp
    constructor
    · simp [parse_subject, hvalid, hsp, cget, hmi, hpl, hz', hb10, hscan]
    · simp [parse_subject, hvalid, hminus_sp, cget, hz', hb10, hscan]
      omega

/-- The subject sequence of the canonical decimal text of `v` is the whole
text, with the sign and the magnitude of `v`. -/
theorem parse_subject_decimal_text (v : Int) (base : Nat) (hbase : base = 0 ∨ base = 10) :
    parse_subject (decimal_text v) base
      = (decide (v < 0), v.natAbs, (decimal_text v).length) := by
  by_cases hv : v < 0
  · obtain ⟨m, l, e, hm, h1, _, h3⟩ := toDigitsCore_scan (v.natAbs + 1) v.natAbs [] (by omega)
    have e' : Nat.toDigits 10 v.natAbs = Nat.digitChar m :: l := by
      simpa [Nat.toDigits] using e
    simp only [decimal_text, hv, if_true, e', decide_True]
    rw [(parse_subject_digits m l v.natAbs base hbase hm h1 h3).2]
    simp
  · obtain ⟨m, l, e, hm, h1, _, h3⟩ := toDigitsCore_scan (v.toNat + 1) v.toNat [] (by omega)
    have e' : Nat.toDigits 10 v.toNat = Nat.digitChar m :: l := by
      simpa [Nat.toDigits] using e
    simp only [decimal_text, hv, if_false, e', decide_False]
    rw [(parse_subject_digits m l v.toNat base hbase hm h1 h3).1]
    have : v.toNat = v.natAbs := by omega
    simp [this]

/-- The int converter on the canonical decimal text of any integer `v`: it
stores `v` when `v` is an `int`, and reports an invalid number otherwise. -/
theorem handle_int_decimal_text (parser : optparse) (opt : optparse_opt) (v : Int) (w : World)
    (hbase : opt.num_base = 0 ∨ opt.num_base = 10) :
    optparse_handle_int parser opt (some (decimal_text v)) w
      = if INT_MIN ≤ v ∧ v ≤ INT_MAX then
          (Status.ret 1, { w with ints := store w.ints opt.data v })
        else (Status.ret 0, eprint w (invalid_number_msg parser (decimal_text v))) := by
  have hvalid : opt.num_base = 0 ∨ (2 ≤ opt.num_base ∧ opt.num_base ≤ 36) := by omega
  simp only [optparse_handle_int, strtol, if_pos hvalid, parse_subject_decimal_text v _ hbase,
    cget_length, ne_eq, not_true_eq_false, false_or, decide_eq_true_eq]
  simp only [INT_MIN, INT_MAX, LONG_MIN, LONG_MAX]
  by_cases hv : v < 0
  · have : -(v.natAbs : Int) = v := by omega
    simp only [hv, if_true, this]
    split_ifs <;> first | rfl | omega
  · have : (v.natAbs : Int) = v := by omega
    simp only [hv, if_false, this]
    split_ifs <;> first | rfl | omega

/-- The unsigned converter on the canonical decimal text of any natural
number `n`: it stores `n` when `n` is an `unsigned`, and reports an invalid
number otherwise. -/
theorem handle_unsigned_decimal_text (parser : optparse) (opt : optparse_opt) (n : Nat)
    (w : World) (hbase : opt.num_base = 0 ∨ opt.num_base = 10) :
    optparse_handle_unsigned parser opt (some (decimal_text (n : Int))) w
      = if n ≤ UINT_MAX then
          (Status.ret 1, { w with uints := store w.uints opt.data n })
        else (Status.ret 0, eprint w (invalid_number_msg parser (decimal_text (n : Int)))) := by
  have hn : ¬ ((n : Int) < 0) := by omega
  have hvalid : opt.num_base = 0 ∨ (2 ≤ opt.num_base ∧ opt.num_base ≤ 36) := by omega
  simp only [optparse_handle_unsigned, strtoul, if_pos hvalid,
    parse_subject_decimal_text (n : Int) _ hbase, cget_length, ne_eq, not_true_eq_false, false_or, hn, decide_False, Bool.false_eq_true,
    if_false, Int.natAbs_ofNat]
  simp only [UINT_MAX, ULONG_MAX]
  split_ifs <;> first | rfl | omega

/-! ## Numeric round trip and range errors -/

/-- C9. For an option of base 0 or 10, the int converter applied to the
canonical decimal text of any `v` with `INT_MIN ≤ v ≤ INT_MAX` reports
success and stores exactly `v`; the unsigned converter applied to the
canonical decimal text of any `n ≤ UINT_MAX` reports success and stores
exactly `n`. -/
theorem decimal_round_trip (parser : optparse) (opt : optparse_opt) (w : World)
    (hbase : opt.num_base = 0 ∨ opt.num_base = 10) :
    (∀ v : Int, INT_MIN ≤ v → v ≤ INT_MAX →
        optparse_handle_int parser opt (some (decimal_text v)) w
          = (Status.ret 1, { w with ints := store w.ints opt.data v }))
      ∧ (∀ n : Nat, n ≤ UINT_MAX →
          optparse_handle_unsigned parser opt (some (decimal_text (n : Int))) w
            = (Status.ret 1, { w with uints := store w.uints opt.data n })) := by
  constructor
  · intro v h1 h2
    rw [handle_int_decimal_text parser opt v w hbase, if_pos ⟨h1, h2⟩]
  · intro n h
    rw [handle_unsigned_decimal_text parser opt n w hbase, if_pos h]

/-- C9, at a concrete input: the text `-2147483648` given to the `int` option
of the test program stores `INT_MIN`. -/
theorem decimal_round_trip_witness :
    optparse_handle_int test_registry (nth_opt test_registry 4)
        (some "-2147483648".toList) world0
      = (Status.ret 1,
          { world0 with
            ints := store world0.ints (nth_opt test_registry 4).data (-2147483648) }) := by
  have h := (decimal_round_trip test_registry (nth_opt test_registry 4) world0 (by decide)).1
    (-2147483648) (by decide) (by decide)
  rw [show decimal_text (-2147483648) = "-2147483648".toList by decide] at h
  exact h

/-- C10. Whatever the base, a text whose subject sequence has a mathematical
value outside `[INT_MIN, INT_MAX]` makes the int converter report an invalid
number and leave the cell alone, and one whose value is above `UINT_MAX` does
the same to the unsigned converter: the clamping of `strtol` and `strtoul` to
the 64-bit range never brings a value back into the 32-bit range.  In
particular the canonical decimal text of every integer outside the range, of
any magnitude, is rejected in base 0 or 10. -/
theorem out_of_range_number_rejected (parser : optparse) (opt : optparse_opt) (w : World) :
    (∀ a : CStr,
        literal_value a opt.num_base < INT_MIN ∨ literal_value a opt.num_base > INT_MAX →
        optparse_handle_int parser opt (some a) w
          = (Status.ret 0, eprint w (invalid_number_msg parser a)))
      ∧ (∀ a : CStr, literal_value a opt.num_base > (UINT_MAX : Int) →
          optparse_handle_unsigned parser opt (some a) w
            = (Status.ret 0, eprint w (invalid_number_msg parser a)))
      ∧ (opt.num_base = 0 ∨ opt.num_base = 10 →
          (∀ v : Int, v < INT_MIN ∨ v > INT_MAX →
            optparse_handle_int parser opt (some (decimal_text v)) w
              = (Status.ret 0, eprint w (invalid_number_msg parser (decimal_text v))))
          ∧ (∀ n : Nat, n > UINT_MAX →
            optparse_handle_unsigned parser opt (some (decimal_text (n : Int))) w
              = (Status.ret 0,
                  eprint w (invalid_number_msg parser (decimal_text (n : Int)))))) := by
  refine ⟨?_, ?_, ?_⟩
  · intro a h
    by_cases hvalid : opt.num_base = 0 ∨ (2 ≤ opt.num_base ∧ opt.num_base ≤ 36)
    · obtain ⟨lp, hlp, hfail⟩ : ∃ lp, strtol a opt.num_base = some lp
          ∧ (lp.1 < INT_MIN ∨ lp.1 > INT_MAX) := by
        refine ⟨_, if_pos hvalid, ?_⟩
        simp only [literal_value, INT_MIN, INT_MAX] at h
        simp only [INT_MIN, INT_MAX, LONG_MIN, LONG_MAX]
        split_ifs at h ⊢ <;> omega
      simp only [optparse_handle_int, hlp]
      rw [if_pos (Or.inr hfail)]
    · exfalso
      simp only [literal_value, parse_subject, if_pos hvalid, INT_MIN, INT_MAX] at h
      simp at h
  · intro a h
    by_cases hvalid : opt.num_base = 0 ∨ (2 ≤ opt.num_base ∧ opt.num_base ≤ 36)
    · obtain ⟨lp, hlp, hfail⟩ : ∃ lp, strtoul a opt.num_base = some lp ∧ lp.1 > UINT_MAX := by
        refine ⟨_, if_pos hvalid, ?_⟩
        simp only [literal_value, UINT_MAX] at h
        simp only [UINT_MAX, ULONG_MAX]
        split_ifs at h ⊢ <;> omega
      simp only [optparse_handle_unsigned, hlp]
      rw [if_pos (Or.inr hfail)]
    · exfalso
      simp only [literal_value, parse_subject, if_pos hvalid, UINT_MAX] at h
      simp at h
  · intro hbase
    constructor
    · intro v h
      rw [handle_int_decimal_text parser opt v w hbase, if_neg (by omega)]
    · intro n h
      rw [handle_unsigned_decimal_text parser opt n w hbase, if_neg (by omega)]

/-- C10, at a concrete input: the text `99999999999999999999`, beyond the
range of `long`, is rejected by the `int` option of the test program. -/
theorem out_of_range_number_rejected_witness :
    optparse_handle_int test_registry (nth_opt test_registry 4)
        (some "99999999999999999999".toList) world0
      = (Status.ret 0,
          eprint world0 (invalid_number_msg test_registry "99999999999999999999".toList)) :=
  (out_of_range_number_rejected test_registry (nth_opt test_registry 4) world0).1
    "99999999999999999999".toList (Or.inr (by decide))

/-! ## Failure of a converter -/

/-- C11. When scanning reaches index `k` and the iteration there calls the
converter of `o` with `arg`, which returns 0, `optparse_parse` returns -1 with
the world the converter left: the trace ends with that call, so no converter
is called for a later token.  In the scenario registry the vector
`--num=notanumber` returns -1 with the `invalid number` diagnostic, the cell
untouched. -/
theorem converter_failure_halts (strtod : CStr → Nat × Nat) (parser : optparse)
    (argv : List CStr) (w0 w : World) (k : Nat) (o : optparse_opt) (arg : Option CStr)
    (q0 q : optparse)
    (hreach : Reaches strtod parser argv w0 k w)
    (hiter : loop_iter strtod { scan_start parser argv with argi := k } w
      = after_handler ((invoke strtod q0 o arg w).1, q, (invoke strtod q0 o arg w).2))
    (hfail : (invoke strtod q0 o arg w).1 = Status.ret 0) :
    optparse_parse strtod parser argv w0
        = some (Status.ret (-1), q, (invoke strtod q0 o arg w).2)
      ∧ (invoke strtod q0 o arg w).2.calls = w.calls ++ [(o, arg)]
      ∧ (∀ (progname : Option CStr) (ptr : Nat) (tail : List CStr) (w1 : World),
          optparse_parse strtod (help_num_registry progname ptr)
              ("--num=notanumber".toList :: tail) w1
            = some (Status.ret (-1),
                { scan_start (help_num_registry progname ptr)
                    ("--num=notanumber".toList :: tail) with argi := 1 },
                { w1 with
                  stderr := w1.stderr
                    ++ invalid_number_msg (help_num_registry progname ptr) "notanumber".toList
                  calls := w1.calls ++ [(num_opt ptr, some "notanumber".toList)] })) := by
  refine ⟨?_, invoke_calls strtod q0 o arg w, ?_⟩
  · apply parse_of_fail hreach
    rw [hiter, hfail]
  · intro progname ptr tail w1
    have h0 := reaches_start strtod (help_num_registry progname ptr)
      ("--num=notanumber".toList :: tail) w1
    have hit := long_value_iter strtod (help_num_registry progname ptr)
      ("--num=notanumber".toList :: tail) w1 0 [help_opt] [] (num_opt ptr) "num".toList
      "notanumber".toList (help_num_registry_options progname ptr) rfl rfl (by decide) rfl
      (by decide)
    have hinv : invoke strtod
        { scan_start (help_num_registry progname ptr)
            ("--num=notanumber".toList :: tail) with argi := 0 + 1 }
        (num_opt ptr) (some "notanumber".toList) w1
        = (Status.ret 0, { w1 with
            stderr := w1.stderr
              ++ invalid_number_msg (help_num_registry progname ptr) "notanumber".toList
            calls := w1.calls ++ [(num_opt ptr, some "notanumber".toList)] }) := by
      simp only [invoke, optparse_handle_int, num_opt]
      rfl
    have hn : (num_opt ptr).arg_desc.isNone = false := rfl
    simp only [hn, Bool.false_eq_true, if_false] at hit
    rw [hinv] at hit
    exact parse_of_fail h0 hit

/-- C11, at a concrete input: `--num=notanumber` followed by another option
fails at index 0 and the trace holds the one failing call. -/
theorem converter_failure_halts_witness :
    optparse_parse strtod0 (help_num_registry none 0)
        ["--num=notanumber".toList, "--num=5".toList] world0
      = some (Status.ret (-1),
          { scan_start (help_num_registry none 0)
              ["--num=notanumber".toList, "--num=5".toList] with argi := 1 },
          { world0 with
            stderr := world0.stderr
              ++ invalid_number_msg (help_num_registry none 0) "notanumber".toList
            calls := world0.calls ++ [(num_opt 0, some "notanumber".toList)] }) :=
  (converter_failure_halts strtod0 (help_num_registry none 0)
    ["--num=notanumber".toList, "--num=5".toList] world0 world0 0 (num_opt 0)
    (some "notanumber".toList)
    { scan_start (help_num_registry none 0)
        ["--num=notanumber".toList, "--num=5".toList] with argi := 0 + 1 }
    { scan_start (help_num_registry none 0)
        ["--num=notanumber".toList, "--num=5".toList] with argi := 0 + 1 }
    (reaches_start _ _ _ _)
    (long_value_iter strtod0 (help_num_registry none 0)
      ["--num=notanumber".toList, "--num=5".toList] world0 0 [help_opt] [] (num_opt 0)
      "num".toList "notanumber".toList (help_num_registry_options none 0) rfl rfl (by decide)
      rfl (by decide))
    (by decide)).1.trans (by
      simp only [invoke, optparse_handle_int, num_opt]
      rfl)

/-! ## Tokens that no long form matches -/

/-- When the tests of `handle_long_opt` fail on every option, the token is
reported as an invalid option and no converter is called. -/
theorem long_no_hit_fails (strtod : CStr → Nat × Nat) (p : optparse) (s : CStr) (w : World)
    (h : ∀ o ∈ p.options, long_hit s o = false) :
    handle_long_opt strtod p s w = (Status.ret 0, eprint w (long_invalid_msg p s)) := by
  have := long_opt_loop_skip strtod p s p.options [] w h
  rw [List.append_nil] at this
  rw [handle_long_opt, this, long_opt_loop]

/-- C12 (what the code does). In the registry of the test program the token
`--=v` is not reported as an invalid option: the short-only option `-t` has a
null long form of length 0, which `strncmp` compares equal to anything, so the
token is taken as that option with the argument `v`; the string cell is
written and `optparse_parse` returns 1. -/
theorem long_token_hits_short_only_option (strtod : CStr → Nat × Nat) (w : World) :
    (nth_opt test_registry 10).long_opt = none
      ∧ (nth_opt test_registry 10).short_opt = ('t'.toNat : Int)
      ∧ optparse_parse strtod test_registry ["--=v".toList] w
        = some (Status.ret 1, { scan_start test_registry ["--=v".toList] with argi := 1 },
            { w with
              strs := store w.strs 0 (some "v".toList)
              calls := w.calls ++ [(nth_opt test_registry 10, some "v".toList)] }) := by
  refine ⟨by decide, by decide, ?_⟩
  have h0 := reaches_start strtod test_registry ["--=v".toList] w
  have hit := loop_iter_long strtod { scan_start test_registry ["--=v".toList] with argi := 0 } w
    "=v".toList (by decide) rfl (by decide)
  rw [long_first strtod _ "=v".toList (test_registry.options.take 10)
    (test_registry.options.drop 11) (nth_opt test_registry 10) w (by decide) (by decide)
    (by decide)] at hit
  rw [if_neg (by decide), if_pos (by decide), if_neg (by decide),
    invoke_string strtod _ _ _ w (by decide),
    after_handler_ret_nonzero 1 (by decide)] at hit
  have h1 := reaches_next h0 hit
  apply parse_of_stop h1
  exact loop_iter_end strtod _ _ (by decide)

/-! ## Tokens with characters after the short option character -/

/-- The iteration at a token `-c...` whose character first matches an option
that takes no argument. -/
theorem short_flag_iter (strtod : CStr → Nat × Nat) (parser : optparse) (argv : List CStr)
    (w : World) (i : Nat) (c : Char) (pre post : List optparse_opt) (o : optparse_opt)
    (rest : CStr)
    (hopts : parser.options = pre ++ o :: post)
    (hpre : ∀ o' ∈ pre, short_hit c o' = false)
    (hhit : short_hit c o = true)
    (hflag : o.arg_desc = none)
    (hc : c ≠ '-')
    (htok : argv.get? i = some ('-' :: c :: rest)) :
    loop_iter strtod { scan_start parser argv with argi := i } w
      = after_handler
          ((invoke strtod { scan_start parser argv with argi := i + 1 } o none w).1,
           { scan_start parser argv with argi := i + 1 },
           (invoke strtod { scan_start parser argv with argi := i + 1 } o none w).2) := by
  obtain ⟨ht, hi⟩ := getD_of_get? htok
  rw [loop_iter_short strtod _ w c rest (by simpa [scan_start] using hi)
    (by simpa [scan_start] using ht) hc (short_hit_ne_nul hhit)]
  have hhit' := hhit
  simp only [short_hit, decide_eq_true_eq] at hhit'
  simp only [handle_short_opt, scan_start, hopts]
  rw [short_opt_loop_skip strtod _ c pre (o :: post) w hpre, short_opt_loop]
  simp only [hhit', hflag, ne_eq, not_false_eq_true, and_self, if_true, Option.isSome_none,
    Bool.false_eq_true, if_false]

/-- The iteration at a token `-c...` whose character matches no option. -/
theorem short_no_hit_iter (strtod : CStr → Nat × Nat) (parser : optparse) (argv : List CStr)
    (w : World) (i : Nat) (c : Char) (rest : CStr)
    (hnone : ∀ o ∈ parser.options, short_hit c o = false)
    (hc : c ≠ '-') (hn : c ≠ NUL)
    (htok : argv.get? i = some ('-' :: c :: rest)) :
    loop_iter strtod { scan_start parser argv with argi := i } w
      = after_handler (Status.ret 0, { scan_start parser argv with argi := i + 1 },
          eprint w (short_invalid_msg parser c)) := by
  obtain ⟨ht, hi⟩ := getD_of_get? htok
  rw [loop_iter_short strtod _ w c rest (by simpa [scan_start] using hi)
    (by simpa [scan_start] using ht) hc hn]
  have := short_opt_loop_skip strtod { scan_start parser argv with argi := i + 1 } c
    parser.options [] w hnone
  rw [List.append_nil, short_opt_loop] at this
  show after_handler (short_opt_loop strtod { scan_start parser argv with argi := i + 1 } c
    parser.options w) = _
  rw [this]
  rfl

/-- C13 (what the code does). `optparse_parse` hands `s[1]` to
`handle_short_opt` without looking at `s[2]`, so a token with characters after
the option character does not end the scan.  In the registry of the test
program the token `-1yz` is taken as the flag `-1`: the set converter is
called, the cell holds 1, and the result is 1, not the index 0 of the token.
In the scenario registry the tokens `-n5 file` are taken as `-n` with the
argument `file`: the `5` is dropped, the int converter is called on `file`,
and the result is -1 with an `invalid number` diagnostic, not the index 0. -/
theorem multi_char_token_not_positional :
    (optparse_parse strtod0 test_registry ["-1yz".toList] world0).map
        (fun r => (r.1, r.2.2.ints 0, r.2.2.calls.length))
      = some (Status.ret 1, 1, 1)
    ∧ (optparse_parse strtod0 (help_num_registry none 0) ["-n5".toList, "file".toList]
        world0).map (fun r => (r.1, r.2.1.argi, r.2.2.stderr, r.2.2.calls.map (fun c => c.2)))
      = some (Status.ret (-1), 2, "unknown: invalid number \"file\"\n".toList,
          [some "file".toList]) := by
  decide

/-- The general form of the behaviour above.  A reached token that starts
with `-`, whose second character `c` is neither `-` nor the terminator, is
handled as the short option `c` whatever characters follow `c`.  With `o` the
first option matching `c`: a flag has its converter called with a null
argument; an option that takes an argument has it called with the next token,
the cursor moving past that token, and fails with `requires an argument` when
no token follows.  When no option matches `c`, `optparse_parse` returns -1
with the diagnostic `invalid option` naming `-c`. -/
theorem short_option_ignores_trailing_characters (strtod : CStr → Nat × Nat)
    (parser : optparse) (argv : List CStr) (w0 w : World) (i : Nat) (c : Char) (rest : CStr)
    (hreach : Reaches strtod parser argv w0 i w)
    (htok : argv.get? i = some ('-' :: c :: rest))
    (hc : c ≠ '-') (hn : c ≠ NUL) :
    (∀ (pre post : List optparse_opt) (o : optparse_opt),
        parser.options = pre ++ o :: post → (∀ o' ∈ pre, short_hit c o' = false) →
        short_hit c o = true →
        (o.arg_desc = none →
          loop_iter strtod { scan_start parser argv with argi := i } w
            = after_handler
                ((invoke strtod { scan_start parser argv with argi := i + 1 } o none w).1,
                 { scan_start parser argv with argi := i + 1 },
                 (invoke strtod { scan_start parser argv with argi := i + 1 } o none w).2))
        ∧ (o.arg_desc.isSome = true → ∀ tok : CStr, argv.get? (i + 1) = some tok →
          loop_iter strtod { scan_start parser argv with argi := i } w
            = after_handler
                ((invoke strtod { scan_start parser argv with argi := i + 2 } o
                    (some tok) w).1,
                 { scan_start parser argv with argi := i + 2 },
                 (invoke strtod { scan_start parser argv with argi := i + 2 } o
                    (some tok) w).2))
        ∧ (o.arg_desc.isSome = true → i + 1 = argv.length →
          optparse_parse strtod parser argv w0
            = some (Status.ret (-1), { scan_start parser argv with argi := i + 1 },
                eprint w (short_requires_msg parser c))))
      ∧ ((∀ o ∈ parser.options, short_hit c o = false) →
          optparse_parse strtod parser argv w0
            = some (Status.ret (-1), { scan_start parser argv with argi := i + 1 },
                eprint w (short_invalid_msg parser c))) := by
  refine ⟨?_, ?_⟩
  · intro pre post o hopts hpre hhit
    refine ⟨?_, ?_, ?_⟩
    · intro hflag
      exact short_flag_iter strtod parser argv w i c pre post o rest hopts hpre hhit hflag hc htok
    · intro harg tok hnext
      exact short_arg_iter strtod parser argv w i c pre post o rest tok hopts hpre hhit harg hc
        htok hnext
    · intro harg hlast
      exact parse_of_fail hreach
        (short_last_iter strtod parser argv w i c pre post o rest hopts hpre hhit harg hc htok
          hlast)
  · intro hnone
    exact parse_of_fail hreach (short_no_hit_iter strtod parser argv w i c rest hnone hc hn htok)

/-- The general form at a concrete input: `-qyz` names no option of the test
program and is rejected as the invalid option `-q`. -/
theorem short_option_ignores_trailing_characters_witness :
    optparse_parse strtod0 test_registry ["-qyz".toList] world0
      = some (Status.ret (-1), { scan_start test_registry ["-qyz".toList] with argi := 0 + 1 },
          eprint world0 (short_invalid_msg test_registry 'q')) :=
  (short_option_ignores_trailing_characters strtod0 test_registry ["-qyz".toList] world0 world0
    0 'q' "yz".toList (reaches_start _ _ _ _) rfl (by decide) (by decide)).2 (by decide)

/-! ## The help option -/

/-- The help converter prints the help text and ends the process with code 0. -/
theorem invoke_help (strtod : CStr → Nat × Nat) (p : optparse) (o : optparse_opt)
    (arg : Option CStr) (w : World) (h : o.func = optparse_func.handle_help) :
    invoke strtod p o arg w
      = (Status.exited 0, { w with
          stdout := w.stdout ++ optparse_help p
          calls := w.calls ++ [(o, arg)] }) := by
  simp only [invoke, h, optparse_handle_help]

theorem after_handler_exited (code : Int) (p : optparse) (w : World) :
    after_handler (Status.exited code, p, w) = Step.stop (Status.exited code) p w := rfl

/-- C14. `optparse_add_help` appends the record `help_opt`.  When scanning
reaches a token `--help` or `-h` that resolves to that record, the run ends
with `exit(0)` (neither -1 nor an index is returned), the help text of the
parser has been appended to `stdout`, and the trace ends with the call of the
help converter: no later token is processed.  The text appended is spelled
out: the usage line `Usage: <progname> [OPTIONS...]` followed by the summary
when the parser holds one, an empty line, and one line for each registered
option in registration order, the line of the help option being
`  -h, --help`, padded to column 28, then `display this help and exit`.  It
is therefore never empty. -/
theorem help_requests_exit (strtod : CStr → Nat × Nat) (parser : optparse)
    (argv : List CStr) (w0 w : World) (i : Nat) (pre post : List optparse_opt)
    (hreach : Reaches strtod parser argv w0 i w)
    (hopts : parser.options = pre ++ help_opt :: post) :
    (∀ p : optparse, (optparse_add_help p).1.options = p.options ++ [help_opt])
      ∧ (argv.get? i = some "--help".toList →
          (∀ o' ∈ pre, long_hit "help".toList o' = false) →
          optparse_parse strtod parser argv w0
            = some (Status.exited 0, { scan_start parser argv with argi := i + 1 },
                { w with
                  stdout := w.stdout ++ ("Usage: ".toList ++ parser.progname
                    ++ " [OPTIONS...]".toList
                    ++ (match parser.arg_summary with
                        | some summary => ' ' :: summary
                        | none => [])
                    ++ "\n\n".toList
                    ++ (pre.map help_line).flatten
                    ++ "  -h, --help                display this help and exit\n".toList
                    ++ (post.map help_line).flatten)
                  calls := w.calls ++ [(help_opt, none)] }))
      ∧ (argv.get? i = some "-h".toList →
          (∀ o' ∈ pre, short_hit 'h' o' = false) →
          optparse_parse strtod parser argv w0
            = some (Status.exited 0, { scan_start parser argv with argi := i + 1 },
                { w with
                  stdout := w.stdout ++ ("Usage: ".toList ++ parser.progname
                    ++ " [OPTIONS...]".toList
                    ++ (match parser.arg_summary with
                        | some summary => ' ' :: summary
                        | none => [])
                    ++ "\n\n".toList
                    ++ (pre.map help_line).flatten
                    ++ "  -h, --help                display this help and exit\n".toList
                    ++ (post.map help_line).flatten)
                  calls := w.calls ++ [(help_opt, none)] }))
      ∧ optparse_help parser
          = "Usage: ".toList ++ parser.progname ++ " [OPTIONS...]".toList
            ++ (match parser.arg_summary with
                | some summary => ' ' :: summary
                | none => [])
            ++ "\n\n".toList
            ++ (pre.map help_line).flatten
            ++ "  -h, --help                display this help and exit\n".toList
            ++ (post.map help_line).flatten
      ∧ optparse_help parser ≠ [] := by
  have hline : help_line help_opt
      = "  -h, --help                display this help and exit\n".toList := by decide
  have htext : ∀ q : optparse, q.progname = parser.progname →
      q.arg_summary = parser.arg_summary → q.options = parser.options →
      optparse_help q
        = "Usage: ".toList ++ parser.progname ++ " [OPTIONS...]".toList
          ++ (match parser.arg_summary with
              | some summary => ' ' :: summary
              | none => [])
          ++ "\n\n".toList
          ++ (pre.map help_line).flatten
          ++ "  -h, --help                display this help and exit\n".toList
          ++ (post.map help_line).flatten := by
    intro q h1 h2 h3
    simp only [optparse_help, h1, h2, h3, hopts, List.map_append, List.map_cons,
      List.flatten_append, List.flatten_cons, hline]
    cases parser.arg_summary <;> simp only [List.append_assoc, List.append_nil]
  refine ⟨fun p => rfl, ?_, ?_, htext parser rfl rfl rfl, ?_⟩
  · intro htok hpre
    have h := long_bare_iter strtod parser argv w i pre post help_opt "help".toList hopts rfl rfl
      (by decide) htok hpre
    rw [if_neg (by decide), invoke_help strtod _ help_opt none w rfl, after_handler_exited,
      htext { scan_start parser argv with argi := i + 1 } rfl rfl rfl] at h
    exact parse_of_stop hreach h
  · intro htok hpre
    have h := short_flag_iter strtod parser argv w i 'h' pre post help_opt [] hopts hpre
      (by decide) rfl (by decide) htok
    rw [invoke_help strtod _ help_opt none w rfl, after_handler_exited,
      htext { scan_start parser argv with argi := i + 1 } rfl rfl rfl] at h
    exact parse_of_stop hreach h
  · rw [htext parser rfl rfl rfl]
    simp

/-- C14, at a concrete input: in the scenario registry `-h` after `-n 0x10`
ends the run with `exit(0)`; the three lines of the help text of that registry
and the empty line after the first are on `stdout`, and the token after `-h`
is not processed. -/
theorem help_requests_exit_witness :
    optparse_parse strtod0 (help_num_registry none 0)
        ["-n".toList, "0x10".toList, "-h".toList, "--num=7".toList] world0
      = some (Status.exited 0,
          { scan_start (help_num_registry none 0)
              ["-n".toList, "0x10".toList, "-h".toList, "--num=7".toList] with argi := 2 + 1 },
          { world0 with
            ints := store world0.ints 0 16
            stdout := ("Usage: unknown [OPTIONS...]\n\n"
              ++ "  -h, --help                display this help and exit\n"
              ++ "  -n, --num=NUM\n").toList
            calls := world0.calls ++ [(num_opt 0, some "0x10".toList)] ++ [(help_opt, none)] }) :=
  (help_requests_exit strtod0 (help_num_registry none 0)
    ["-n".toList, "0x10".toList, "-h".toList, "--num=7".toList] world0 _ 2 [] [num_opt 0]
    (scenario_reaches strtod0 none 0 ["-h".toList, "--num=7".toList] world0)
    (help_num_registry_options none 0)).2.2.1 rfl (by decide)

/-! ## The usage line -/

/-- C15 (what the code does). `optparse_new` never stores the summary: the
record is zero-filled and the assignment is guarded by the field it is about
to set.  The help text of a parser created with program name `p` and any
summary `s` therefore begins with `Usage: p [OPTIONS...]` directly followed by
the blank line; with `test-optparse` and `ARGS...` the summary is missing. -/
theorem usage_line_drops_summary (p : CStr) (s : Option CStr) :
    (optparse_new (some p) s).arg_summary = none
      ∧ optparse_help (optparse_new (some p) s)
          = "Usage: ".toList ++ p ++ " [OPTIONS...]".toList ++ "\n\n".toList
      ∧ optparse_help (optparse_new (some "test-optparse".toList) (some "ARGS...".toList))
          = "Usage: test-optparse [OPTIONS...]\n\n".toList := by
  refine ⟨rfl, ?_, by decide⟩
  simp [optparse_help, optparse_new]

/-! ## Optional string arguments -/

/-- C16. Let `o` be a string option with the non-empty long form `L` that was
marked optional, reached as the first match.  The bare token `--L` stores a
null pointer in the string cell, whatever the cell held, and scanning
continues; the token `--L=v` stores exactly `v`, the text after the `=` that
follows `L`, and scanning continues.  The string converter returns 1 on every
input. -/
theorem optional_string_long_form (strtod : CStr → Nat × Nat) (parser : optparse)
    (argv : List CStr) (w0 w : World) (i : Nat) (pre post : List optparse_opt)
    (o0 : optparse_opt) (L : CStr)
    (hreach : Reaches strtod parser argv w0 i w)
    (hopts : parser.options = pre ++ optparse_arg_optional o0 :: post)
    (hL : o0.long_opt = some L) (hlen : o0.long_opt_len = strlen L) (hL0 : cget L 0 ≠ NUL)
    (harg : o0.arg_desc.isSome = true)
    (hfunc : o0.func = optparse_func.handle_string) :
    (argv.get? i = some ("--".toList ++ L) → (∀ o' ∈ pre, long_hit L o' = false) →
        Reaches strtod parser argv w0 (i + 1)
            { w with
              strs := store w.strs o0.data none
              calls := w.calls ++ [(optparse_arg_optional o0, none)] }
          ∧ store w.strs o0.data none o0.data = none)
      ∧ (∀ v : CStr, argv.get? i = some ("--".toList ++ L ++ '=' :: v) →
          (∀ o' ∈ pre, long_hit (L ++ '=' :: v) o' = false) →
          Reaches strtod parser argv w0 (i + 1)
              { w with
                strs := store w.strs o0.data (some v)
                calls := w.calls ++ [(optparse_arg_optional o0, some v)] }
            ∧ store w.strs o0.data (some v) o0.data = some v)
      ∧ (∀ (p : optparse) (o : optparse_opt) (arg : Option CStr) (w' : World),
          (optparse_handle_string p o arg w').1 = Status.ret 1) := by
  have hL' : (optparse_arg_optional o0).long_opt = some L := hL
  have hlen' : (optparse_arg_optional o0).long_opt_len = strlen L := hlen
  refine ⟨?_, ?_, fun _ _ _ _ => rfl⟩
  · intro htok hpre
    have h := long_bare_iter strtod parser argv w i pre post _ L hopts hL' hlen' hL0 htok hpre
    simp only [optional_flag_set, and_false, if_false] at h
    rw [invoke_string strtod _ (optparse_arg_optional o0) none w hfunc,
      after_handler_ret_nonzero 1 (by decide)] at h
    exact ⟨reaches_next hreach h, by simp [store]⟩
  · intro v htok hpre
    have h := long_value_iter strtod parser argv w i pre post _ L v hopts hL' hlen' hL0 htok hpre
    have hn : (optparse_arg_optional o0).arg_desc.isNone = false := by
      show o0.arg_desc.isNone = false
      cases hd : o0.arg_desc with
      | none => rw [hd] at harg; cases harg
      | some d => rfl
    simp only [hn, Bool.false_eq_true, if_false] at h
    rw [invoke_string strtod _ (optparse_arg_optional o0) (some v) w hfunc,
      after_handler_ret_nonzero 1 (by decide)] at h
    exact ⟨reaches_next hreach h, by simp [store]⟩

/-- C16, at a concrete input: in the registry of the test program, after
`--string=abc` has stored `abc`, the bare `--ostring` stores null over it. -/
theorem optional_string_long_form_witness :
    Reaches strtod0 test_registry ["--string=abc".toList, "--ostring".toList] world0 (1 + 1)
      { ({ world0 with
            strs := store world0.strs 0 (some "abc".toList)
            calls := world0.calls ++ [(nth_opt test_registry 9, some "abc".toList)] } : World)
        with
        strs := store (store world0.strs 0 (some "abc".toList)) 0 none
        calls := world0.calls ++ [(nth_opt test_registry 9, some "abc".toList)]
          ++ [(nth_opt test_registry 11, none)] } :=
  ((optional_string_long_form strtod0 test_registry
    ["--string=abc".toList, "--ostring".toList] world0
    { world0 with
      strs := store world0.strs 0 (some "abc".toList)
      calls := world0.calls ++ [(nth_opt test_registry 9, some "abc".toList)] }
    1 (test_registry.options.take 11) []
    { short_opt := 0
      long_opt := some "ostring".toList
      long_opt_len := 7
      arg_desc := some "OPT".toList
      help := some "optional string argument".toList
      flags := 0
      func := optparse_func.handle_string
      data := 0
      num_base := 0
      set_value := 0 }
    "ostring".toList
    (by
      apply reaches_next (reaches_start strtod0 test_registry _ world0)
      have h := long_value_iter strtod0 test_registry
        ["--string=abc".toList, "--ostring".toList] world0 0 (test_registry.options.take 9)
        (test_registry.options.drop 10) (nth_opt test_registry 9) "string".toList "abc".toList
        (by decide) (by decide) (by decide) (by decide) rfl (by decide)
      rw [if_neg (by decide), invoke_string strtod0 _ _ _ _ (by decide),
        after_handler_ret_nonzero 1 (by decide)] at h
      exact h)
    (by decide) (by decide) (by decide) (by decide) (by decide) (by decide)).1 rfl
    (by decide)).1

/-! ## Long forms that continue another long form -/

theorem char_diff_ne_zero {a b : Char} (h : a ≠ b) : ((a.toNat : Int) - (b.toNat : Int)) ≠ 0 := by
  intro h0
  apply h
  have : a.toNat = b.toNat := by omega
  exact Char.ext (UInt32.ext this)

/-- Two strings that share a stem without terminator and differ in the
character after it compare unequal under `strncmp`, when the count reaches
that character. -/
theorem strncmp_differ (A t u : CStr) (n : Nat) (hnul : NUL ∉ A) (hd : cget t 0 ≠ cget u 0) :
    strncmp (A ++ t) (A ++ u) (A.length + 1 + n) ≠ 0 := by
  induction A with
  | nil =>
    simp only [List.nil_append, List.length_nil, Nat.zero_add, Nat.add_comm 1 n, strncmp, hd,
      ne_eq, not_false_eq_true, if_true]
    exact char_diff_ne_zero hd
  | cons a A ih =>
    have ha : a ≠ NUL := fun h => hnul (by simp [h])
    have hA : NUL ∉ A := fun h => hnul (List.mem_cons_of_mem _ h)
    rw [show (a :: A).length + 1 + n = (A.length + 1 + n) + 1 by simp; omega]
    simp only [List.cons_append, strncmp, cget, List.getD_cons_zero, ne_eq, not_true_eq_false,
      if_false, ha, List.drop_succ_cons, List.drop_zero]
    exact ih hA

/-- An option whose long form is `A` does not stop the lookup of a text that
continues `A` with a character other than `=` and the terminator. -/
theorem long_hit_stem (oA : optparse_opt) (A x : CStr) (c : Char)
    (hA : oA.long_opt = some A) (hAl : oA.long_opt_len = strlen A)
    (hc0 : c ≠ NUL) (hce : c ≠ '=') :
    long_hit (A ++ c :: x) oA = false := by
  have h := cget_append_length A (c :: x)
  simp only [cget, List.getD_cons_zero] at h
  simp only [long_hit, hA, hAl, strlen, Option.getD_some, decide_eq_false_iff_not, not_and,
    cget, h]
  intro _ hor
  rcases hor with hor | hor
  · exact hc0 hor
  · exact hce hor

/-- An option whose long form continues `A` with the character `c` does not
stop the lookup of a text that continues `A` otherwise. -/
theorem long_hit_longer (oB : optparse_opt) (A rest t : CStr) (c : Char)
    (hB : oB.long_opt = some (A ++ c :: rest)) (hBl : oB.long_opt_len = strlen (A ++ c :: rest))
    (hnul : NUL ∉ A) (ht : cget t 0 ≠ c) :
    long_hit (A ++ t) oB = false := by
  have h := strncmp_differ A t (c :: rest) rest.length hnul (by simpa [cget] using ht)
  simp only [long_hit, hB, hBl, strlen, Option.getD_some, decide_eq_false_iff_not, not_and]
  intro h0
  exfalso
  apply h
  rw [← h0]
  congr 1
  simp
  omega

theorem cget_zero_stem (A rest : CStr) (c : Char) (hnul : NUL ∉ A) (hc0 : c ≠ NUL) :
    cget (A ++ c :: rest) 0 ≠ NUL := by
  cases A with
  | nil => simpa [cget] using hc0
  | cons a A =>
    have ha : a ≠ NUL := fun h => hnul (by simp [h])
    simpa [cget] using ha

/-- C17. Let the options `oA` and `oB` have the long forms `A` and
`B = A ++ c :: rest`, with `A` a non-empty C string and `c` neither `=` nor the
terminator.  Neither option stops the lookup of the other's tokens.  Hence,
wherever the two sit in the registry, when no third option registered before
the target matches, in the iteration at a token of index `i`: the tokens `--B` and `--B=v` are resolved by `oB`, also
with `oA` registered before it, and the tokens `--A` and `--A=v` are resolved
by `oA`, also with `oB` registered before it. -/
theorem long_lookup_exact_with_shared_stem (strtod : CStr → Nat × Nat) (parser : optparse)
    (argv : List CStr) (w : World) (i : Nat) (oA oB : optparse_opt) (A rest : CStr)
    (c : Char)
    (hA : oA.long_opt = some A) (hAl : oA.long_opt_len = strlen A)
    (hB : oB.long_opt = some (A ++ c :: rest))
    (hBl : oB.long_opt_len = strlen (A ++ c :: rest))
    (hne : A ≠ []) (hnul : NUL ∉ A) (hc0 : c ≠ NUL) (hce : c ≠ '=') :
    (∀ v : CStr, long_hit (A ++ c :: rest) oA = false
        ∧ long_hit (A ++ c :: rest ++ '=' :: v) oA = false
        ∧ long_hit A oB = false
        ∧ long_hit (A ++ '=' :: v) oB = false)
      ∧ (∀ pre post : List optparse_opt, parser.options = pre ++ oB :: post →
          (argv.get? i = some ("--".toList ++ (A ++ c :: rest)) →
            (∀ o' ∈ pre, o' = oA ∨ long_hit (A ++ c :: rest) o' = false) →
            loop_iter strtod { scan_start parser argv with argi := i } w
              = long_bare_outcome strtod parser argv i oB (A ++ c :: rest) w)
          ∧ (∀ v : CStr, argv.get? i = some ("--".toList ++ (A ++ c :: rest) ++ '=' :: v) →
            (∀ o' ∈ pre, o' = oA ∨ long_hit (A ++ c :: rest ++ '=' :: v) o' = false) →
            loop_iter strtod { scan_start parser argv with argi := i } w
              = long_value_outcome strtod parser argv i oB (A ++ c :: rest) v w))
      ∧ (∀ pre post : List optparse_opt, parser.options = pre ++ oA :: post →
          (argv.get? i = some ("--".toList ++ A) →
            (∀ o' ∈ pre, o' = oB ∨ long_hit A o' = false) →
            loop_iter strtod { scan_start parser argv with argi := i } w
              = long_bare_outcome strtod parser argv i oA A w)
          ∧ (∀ v : CStr, argv.get? i = some ("--".toList ++ A ++ '=' :: v) →
            (∀ o' ∈ pre, o' = oB ∨ long_hit (A ++ '=' :: v) o' = false) →
            loop_iter strtod { scan_start parser argv with argi := i } w
              = long_value_outcome strtod parser argv i oA A v w)) := by
  have hEq : ('=' : Char) ≠ c := fun h => hce h.symm
  have h1 : long_hit (A ++ c :: rest) oA = false := long_hit_stem oA A rest c hA hAl hc0 hce
  have h2 : ∀ v : CStr, long_hit (A ++ c :: rest ++ '=' :: v) oA = false := by
    intro v
    have := long_hit_stem oA A (rest ++ '=' :: v) c hA hAl hc0 hce
    simpa using this
  have h3 : long_hit A oB = false := by
    have := long_hit_longer oB A rest [] c hB hBl hnul (by simpa [cget] using hc0.symm)
    simpa using this
  have h4 : ∀ v : CStr, long_hit (A ++ '=' :: v) oB = false := by
    intro v
    exact long_hit_longer oB A rest ('=' :: v) c hB hBl hnul (by simpa [cget] using hEq)
  have hA0 : cget A 0 ≠ NUL := by
    cases A with
    | nil => exact absurd rfl hne
    | cons a A =>
      have ha : a ≠ NUL := fun h => hnul (by simp [h])
      simpa [cget] using ha
  refine ⟨fun v => ⟨h1, h2 v, h3, h4 v⟩, ?_, ?_⟩
  · intro pre post hopts
    refine ⟨?_, ?_⟩
    · intro htok hpre
      exact long_bare_iter strtod parser argv w i pre post oB _ hopts hB hBl
        (cget_zero_stem A rest c hnul hc0) htok
        (fun o' ho' => (hpre o' ho').elim (fun e => e ▸ h1) id)
    · intro v htok hpre
      exact long_value_iter strtod parser argv w i pre post oB _ v hopts hB hBl
        (cget_zero_stem A rest c hnul hc0) htok
        (fun o' ho' => (hpre o' ho').elim (fun e => by rw [e]; simpa using h2 v) id)
  · intro pre post hopts
    refine ⟨?_, ?_⟩
    · intro htok hpre
      exact long_bare_iter strtod parser argv w i pre post oA _ hopts hA hAl hA0 htok
        (fun o' ho' => (hpre o' ho').elim (fun e => e ▸ h3) id)
    · intro v htok hpre
      exact long_value_iter strtod parser argv w i pre post oA _ v hopts hA hAl hA0 htok
        (fun o' ho' => (hpre o' ho').elim (fun e => by rw [e]; exact h4 v) id)

/-- C17, at a concrete input: with `--out` registered before `--output`, the
token `--output` is resolved by the flag `--output`. -/
theorem long_lookup_exact_with_shared_stem_witness :
    loop_iter strtod0 { scan_start stem_registry ["--output".toList] with argi := 0 } world0
      = long_bare_outcome strtod0 stem_registry ["--output".toList] 0 (nth_opt stem_registry 1)
          ("out".toList ++ 'p' :: "ut".toList) world0 :=
  ((long_lookup_exact_with_shared_stem strtod0 stem_registry ["--output".toList] world0 0
    (nth_opt stem_registry 0) (nth_opt stem_registry 1) "out".toList "ut".toList 'p'
    (by decide) (by decide) (by decide) (by decide) (by decide) (by decide) (by decide)
    (by decide)).2.1 [nth_opt stem_registry 0] [] (by decide)).1 rfl (by decide)

/-! ## The shapes of one iteration -/

/-- The loop of `handle_long_opt` ends with a diagnostic and the result 0, or
with the call of the converter of a registered option; a null argument is
passed only to an option that takes none or is marked optional. -/
theorem long_opt_loop_cases (strtod : CStr → Nat × Nat) (p : optparse) (s : CStr)
    (opts : List optparse_opt) (w : World) :
    (∃ msg, long_opt_loop strtod p s opts w = (Status.ret 0, eprint w msg))
      ∨ (∃ o ∈ opts, ∃ arg,
          (arg = none → ¬ (o.arg_desc.isSome = true ∧ o.flags &&& OPTPARSE_FLAG_OPTIONAL = 0))
            ∧ long_opt_loop strtod p s opts w = invoke strtod p o arg w) := by
  induction opts with
  | nil => exact Or.inl ⟨_, rfl⟩
  | cons o rest ih =>
    have ih' : (∃ msg, long_opt_loop strtod p s rest w = (Status.ret 0, eprint w msg))
        ∨ (∃ o' ∈ o :: rest, ∃ arg,
          (arg = none → ¬ (o'.arg_desc.isSome = true ∧ o'.flags &&& OPTPARSE_FLAG_OPTIONAL = 0))
            ∧ long_opt_loop strtod p s rest w = invoke strtod p o' arg w) := by
      rcases ih with h | ⟨o', ho', arg, hc, he⟩
      · exact Or.inl h
      · exact Or.inr ⟨o', List.mem_cons_of_mem _ ho', arg, hc, he⟩
    unfold long_opt_loop
    split_ifs with h1 h2 h3 h4 h5
    · exact Or.inl ⟨_, rfl⟩
    · exact Or.inr ⟨o, List.mem_cons_self _ _, none, fun _ => h3, rfl⟩
    · exact Or.inl ⟨_, rfl⟩
    · exact Or.inr ⟨o, List.mem_cons_self _ _, some (s.drop (o.long_opt_len + 1)),
        fun h => Option.noConfusion h, rfl⟩
    · exact ih'
    · exact ih'

/-- The loop of `handle_short_opt` ends with a diagnostic and the result 0, or
with the call of the converter of a registered option; a null argument is
passed only to an option that takes none. -/
theorem short_opt_loop_cases (strtod : CStr → Nat × Nat) (p : optparse) (c : Char)
    (opts : List optparse_opt) (w : World) :
    (∃ msg, short_opt_loop strtod p c opts w = (Status.ret 0, p, eprint w msg))
      ∨ (∃ o ∈ opts, ∃ arg q,
          (arg = none → ¬ (o.arg_desc.isSome = true ∧ o.flags &&& OPTPARSE_FLAG_OPTIONAL = 0))
            ∧ short_opt_loop strtod p c opts w
              = ((invoke strtod q o arg w).1, q, (invoke strtod q o arg w).2)) := by
  induction opts with
  | nil => exact Or.inl ⟨_, rfl⟩
  | cons o rest ih =>
    unfold short_opt_loop
    split_ifs with h1 h2 h3
    · exact Or.inl ⟨_, rfl⟩
    · exact Or.inr ⟨o, List.mem_cons_self _ _, some (p.argv.getD p.argi []),
        { p with argi := p.argi + 1 }, fun h => Option.noConfusion h, rfl⟩
    · exact Or.inr ⟨o, List.mem_cons_self _ _, none, p, fun _ hh => h2 hh.1, rfl⟩
    · rcases ih with h | ⟨o', ho', arg, q, hc, he⟩
      · exact Or.inl h
      · exact Or.inr ⟨o', List.mem_cons_of_mem _ ho', arg, q, hc, he⟩

/-- One iteration of the scanning loop stops with an index and an unchanged
world, or stops with -1 after a diagnostic of the scanner, or is decided by
the result of one converter call. -/
theorem loop_iter_cases (strtod : CStr → Nat × Nat) (p : optparse) (w : World) :
    (∃ (j : Nat) (q : optparse), loop_iter strtod p w = Step.stop (Status.ret (j : Int)) q w)
      ∨ (∃ msg q, loop_iter strtod p w = Step.stop (Status.ret (-1)) q (eprint w msg))
      ∨ (∃ o ∈ p.options, ∃ arg q0 q,
          (arg = none → ¬ (o.arg_desc.isSome = true ∧ o.flags &&& OPTPARSE_FLAG_OPTIONAL = 0))
            ∧ loop_iter strtod p w
              = after_handler ((invoke strtod q0 o arg w).1, q, (invoke strtod q0 o arg w).2)) := by
  simp only [loop_iter]
  split_ifs with h1 h2 h3 h4 h5
  · exact Or.inl ⟨_, _, rfl⟩
  · rcases long_opt_loop_cases strtod { p with argi := p.argi + 1 }
      ((p.argv.getD p.argi []).drop 2) p.options w with ⟨msg, he⟩ | ⟨o, ho, arg, hc, he⟩
    · refine Or.inr (Or.inl ⟨msg, { p with argi := p.argi + 1 }, ?_⟩)
      simp only [handle_long_opt, he]
      exact after_handler_ret_zero _ _
    · refine Or.inr (Or.inr ⟨o, ho, arg, { p with argi := p.argi + 1 },
        { p with argi := p.argi + 1 }, hc, ?_⟩)
      simp only [handle_long_opt, he]
  · exact Or.inl ⟨_, _, rfl⟩
  · rcases short_opt_loop_cases strtod { p with argi := p.argi + 1 }
      (cget (p.argv.getD p.argi []) 1) p.options w with ⟨msg, he⟩ | ⟨o, ho, arg, q, hc, he⟩
    · refine Or.inr (Or.inl ⟨msg, { p with argi := p.argi + 1 }, ?_⟩)
      simp only [handle_short_opt, he]
      exact after_handler_ret_zero _ _
    · refine Or.inr (Or.inr ⟨o, ho, arg, q, q, hc, ?_⟩)
      simp only [handle_short_opt, he]
  · exact Or.inl ⟨_, _, rfl⟩
  · exact Or.inl ⟨_, _, rfl⟩

theorem step_world_after_handler (st : Status) (q : optparse) (w : World) :
    step_world (after_handler (st, q, w)) = w := by
  unfold after_handler
  cases st with
  | ret v =>
    simp only
    split_ifs <;> rfl
  | exited c => rfl
  | crashed => rfl

/-- The result of `parse_loop` is the stop of the iteration at a state that
the scan reaches. -/
theorem parse_loop_decompose (strtod : CStr → Nat × Nat) :
    ∀ (fuel : Nat) (p p' : optparse) (w w' : World) (st : Status),
      parse_loop strtod fuel p w = some (st, p', w') →
        ∃ n p1 w1, scan_steps strtod n p w = some (p1, w1)
          ∧ loop_iter strtod p1 w1 = Step.stop st p' w' := by
  intro fuel
  induction fuel with
  | zero => intro p p' w w' st h; simp [parse_loop] at h
  | succ f ih =>
    intro p p' w w' st h
    unfold parse_loop at h
    cases hs : loop_iter strtod p w with
    | stop st1 p1 w1 =>
      rw [hs] at h
      simp only [Option.some.injEq, Prod.mk.injEq] at h
      obtain ⟨e1, e2, e3⟩ := h
      subst e1 e2 e3
      exact ⟨0, p, w, rfl, hs⟩
    | next p1 w1 =>
      rw [hs] at h
      obtain ⟨n, p2, w2, h1, h2⟩ := ih p1 p' w1 w' st h
      refine ⟨n + 1, p2, w2, ?_, h2⟩
      simp only [scan_steps, hs, h1]

/-! ## Null arguments and the numeric converters -/

/-- When every numeric option takes an argument and is not marked optional,
the call records added by one iteration are free of null numeric calls. -/
theorem loop_iter_calls (strtod : CStr → Nat × Nat) (p : optparse) (w : World)
    (hgood : ∀ o ∈ p.options, is_numeric o.func = true →
      o.arg_desc.isSome = true ∧ o.flags &&& OPTPARSE_FLAG_OPTIONAL = 0) :
    ∃ new, (step_world (loop_iter strtod p w)).calls = w.calls ++ new
      ∧ ∀ c ∈ new, null_numeric_call c = false := by
  rcases loop_iter_cases strtod p w with ⟨j, q, he⟩ | ⟨msg, q, he⟩ | ⟨o, ho, arg, q0, q, hc, he⟩
  · exact ⟨[], by rw [he]; simp [step_world], by simp⟩
  · exact ⟨[], by rw [he]; simp [step_world, eprint], by simp⟩
  · refine ⟨[(o, arg)], ?_, ?_⟩
    · rw [he, step_world_after_handler, invoke_calls]
    · intro c hcm
      rw [List.mem_singleton] at hcm
      subst hcm
      cases arg with
      | some a => simp [null_numeric_call]
      | none =>
        cases hnum : is_numeric o.func with
        | false => simp [null_numeric_call, hnum]
        | true => exact absurd (hgood o ho hnum) (hc rfl)

theorem parse_loop_calls (strtod : CStr → Nat × Nat) :
    ∀ (fuel : Nat) (p p' : optparse) (w w' : World) (st : Status),
      parse_loop strtod fuel p w = some (st, p', w') →
      (∀ o ∈ p.options, is_numeric o.func = true →
        o.arg_desc.isSome = true ∧ o.flags &&& OPTPARSE_FLAG_OPTIONAL = 0) →
      ∃ new, w'.calls = w.calls ++ new ∧ ∀ c ∈ new, null_numeric_call c = false := by
  intro fuel
  induction fuel with
  | zero => intro p p' w w' st h; simp [parse_loop] at h
  | succ f ih =>
    intro p p' w w' st h hgood
    obtain ⟨new1, e1, ok1⟩ := loop_iter_calls strtod p w hgood
    unfold parse_loop at h
    cases hs : loop_iter strtod p w with
    | stop st1 p1 w1 =>
      rw [hs] at h e1
      simp only [Option.some.injEq, Prod.mk.injEq] at h
      obtain ⟨_, _, e3⟩ := h
      subst e3
      exact ⟨new1, e1, ok1⟩
    | next p1 w1 =>
      rw [hs] at h e1
      obtain ⟨j, hj, _, _⟩ := loop_iter_next_cursor hs
      have hopts : p1.options = p.options := by rw [hj]
      obtain ⟨new2, e2, ok2⟩ := ih p1 p' w1 w' st h (by rw [hopts]; exact hgood)
      refine ⟨new1 ++ new2, ?_, ?_⟩
      · rw [e2]
        simp only [step_world] at e1
        rw [e1, List.append_assoc]
      · intro c hcm
        rcases List.mem_append.mp hcm with hcm | hcm
        · exact ok1 c hcm
        · exact ok2 c hcm

/-- A write through the handle that `optparse_opt_new` returns reaches the
record that was appended last. -/
theorem via_handle_last (p : optparse) (l : List optparse_opt) (o : optparse_opt)
    (f : optparse_opt → optparse_opt) :
    via_handle { p with options := l ++ [o] } l.length f = { p with options := l ++ [f o] } := by
  simp [via_handle]

theorem good_append (l : List optparse_opt) (o : optparse_opt)
    (hl : ∀ o' ∈ l, is_numeric o'.func = true →
      o'.arg_desc.isSome = true ∧ o'.flags &&& OPTPARSE_FLAG_OPTIONAL = 0)
    (ho : is_numeric o.func = true →
      o.arg_desc.isSome = true ∧ o.flags &&& OPTPARSE_FLAG_OPTIONAL = 0) :
    ∀ o' ∈ l ++ [o], is_numeric o'.func = true →
      o'.arg_desc.isSome = true ∧ o'.flags &&& OPTPARSE_FLAG_OPTIONAL = 0 := by
  intro o' hm
  rcases List.mem_append.mp hm with h | h
  · exact hl o' h
  · rw [List.mem_singleton] at h
    subst h
    exact ho

/-- In a parser built through the interface without `optparse_arg_optional`
on a numeric option, every numeric option has a placeholder and no flag. -/
theorem registered_good {p : optparse} (h : Registered p) :
    ∀ o ∈ p.options, is_numeric o.func = true →
      o.arg_desc.isSome = true ∧ o.flags &&& OPTPARSE_FLAG_OPTIONAL = 0 := by
  induction h with
  | new progname arg_summary =>
    intro o ho
    simp [optparse_new] at ho
  | add_help _ ih =>
    exact good_append _ _ ih (fun h => by simp [is_numeric] at h)
  | add_set short_opt long_opt value ptr help _ ih =>
    simp only [optparse_add_set, optparse_opt_new]
    rw [via_handle_last]
    exact good_append _ _ ih (fun h => by simp [is_numeric] at h)
  | add_int short_opt long_opt arg_desc base ptr help _ ih =>
    simp only [optparse_add_int, optparse_opt_new]
    rw [via_handle_last]
    exact good_append _ _ ih (fun _ => ⟨rfl, Nat.zero_and _⟩)
  | add_unsigned short_opt long_opt arg_desc base ptr help _ ih =>
    simp only [optparse_add_unsigned, optparse_opt_new]
    rw [via_handle_last]
    exact good_append _ _ ih (fun _ => ⟨rfl, Nat.zero_and _⟩)
  | add_double short_opt long_opt arg_desc ptr help _ ih =>
    exact good_append _ _ ih (fun _ => ⟨rfl, Nat.zero_and _⟩)
  | add_string short_opt long_opt arg_desc ptr help _ ih =>
    exact good_append _ _ ih (fun h => by simp [is_numeric] at h)
  | @arg_optional p k _ hk ih =>
    intro o ho hnum
    unfold via_handle at ho
    cases hg : p.options.get? k with
    | none =>
      rw [hg] at ho
      exact ih o ho hnum
    | some ok =>
      rw [hg] at ho
      simp only at ho
      rcases List.mem_or_eq_of_mem_set ho with h1 | h1
      · exact ih o h1 hnum
      · exfalso
        have hk' : (nth_opt p k).func = ok.func := by
          simp [nth_opt, List.getD_eq_getElem?_getD, ← List.get?_eq_getElem?, hg]
        rw [h1] at hnum
        have : is_numeric ok.func = true := hnum
        rw [← hk', hk] at this
        cases this

/-- C18. In a parser built through the interface without
`optparse_arg_optional` on an int, unsigned or double option, every call
record that a run of `optparse_parse` adds to the trace is free of null
numeric calls, however the run ends.  The numeric registration functions
secure this even for a null placeholder: the record they append has a
placeholder and no flag.  The restriction on `optparse_arg_optional` is
needed: with the `int` option `--num` marked optional, the bare token `--num`
calls the int converter with a null argument, which is undefined behaviour in
`strtol`. -/
theorem numeric_converter_never_gets_null (strtod : CStr → Nat × Nat) (parser : optparse)
    (argv : List CStr) (w0 w' : World) (st : Status) (p' : optparse)
    (hreg : Registered parser)
    (hrun : optparse_parse strtod parser argv w0 = some (st, p', w')) :
    (∃ new, w'.calls = w0.calls ++ new ∧ ∀ c ∈ new, null_numeric_call c = false)
      ∧ (∀ (p : optparse) (short_opt : Int) (long_opt : Option CStr) (base ptr : Nat)
          (help : Option CStr),
          (∃ o, (optparse_add_int p short_opt long_opt none base ptr help).1.options
                = p.options ++ [o]
              ∧ o.func = optparse_func.handle_int ∧ o.arg_desc.isSome = true
              ∧ o.flags &&& OPTPARSE_FLAG_OPTIONAL = 0)
          ∧ (∃ o, (optparse_add_unsigned p short_opt long_opt none base ptr help).1.options
                = p.options ++ [o]
              ∧ o.func = optparse_func.handle_unsigned ∧ o.arg_desc.isSome = true
              ∧ o.flags &&& OPTPARSE_FLAG_OPTIONAL = 0)
          ∧ (∃ o, (optparse_add_double p short_opt long_opt none ptr help).1.options
                = p.options ++ [o]
              ∧ o.func = optparse_func.handle_double ∧ o.arg_desc.isSome = true
              ∧ o.flags &&& OPTPARSE_FLAG_OPTIONAL = 0))
      ∧ (∀ w : World,
          optparse_parse strtod optional_int_registry ["--num".toList] w
              = some (Status.crashed,
                  { scan_start optional_int_registry ["--num".toList] with argi := 1 },
                  { w with calls := w.calls ++ [(nth_opt optional_int_registry 0, none)] })
            ∧ null_numeric_call (nth_opt optional_int_registry 0, none) = true) := by
  refine ⟨?_, ?_, ?_⟩
  · exact parse_loop_calls strtod _ _ p' w0 w' st hrun
      (by simpa [scan_start] using registered_good hreg)
  · intro p short_opt long_opt base ptr help
    refine ⟨?_, ?_, ?_⟩
    · refine ⟨{ short_opt := short_opt
                long_opt := long_opt
                long_opt_len := match long_opt with
                  | some l => strlen l
                  | none => 0
                arg_desc := some "NUM".toList
                help := help
                flags := 0
                func := optparse_func.handle_int
                data := ptr
                num_base := base
                set_value := 0 }, ?_, rfl, rfl, Nat.zero_and _⟩
      simp only [optparse_add_int, optparse_opt_new]
      rw [via_handle_last]
    · refine ⟨{ short_opt := short_opt
                long_opt := long_opt
                long_opt_len := match long_opt with
                  | some l => strlen l
                  | none => 0
                arg_desc := some "NUM".toList
                help := help
                flags := 0
                func := optparse_func.handle_unsigned
                data := ptr
                num_base := base
                set_value := 0 }, ?_, rfl, rfl, Nat.zero_and _⟩
      simp only [optparse_add_unsigned, optparse_opt_new]
      rw [via_handle_last]
    · exact ⟨{ short_opt := short_opt
               long_opt := long_opt
               long_opt_len := match long_opt with
                 | some l => strlen l
                 | none => 0
               arg_desc := some "NUM".toList
               help := help
               flags := 0
               func := optparse_func.handle_double
               data := ptr
               num_base := 0
               set_value := 0 }, rfl, rfl, rfl, Nat.zero_and _⟩
  · intro w
    refine ⟨?_, by decide⟩
    have h0 := reaches_start strtod optional_int_registry ["--num".toList] w
    have h := long_bare_iter strtod optional_int_registry ["--num".toList] w 0 [] []
      (nth_opt optional_int_registry 0) "num".toList (by decide) (by decide) (by decide)
      (by decide) rfl (by decide)
    rw [if_neg (by decide)] at h
    apply parse_of_stop h0
    rw [h]
    have hinv : invoke strtod
        { scan_start optional_int_registry ["--num".toList] with argi := 0 + 1 }
        (nth_opt optional_int_registry 0) none w
        = (Status.crashed,
            { w with calls := w.calls ++ [(nth_opt optional_int_registry 0, none)] }) := by
      have hf : (nth_opt optional_int_registry 0).func = optparse_func.handle_int := by decide
      simp only [invoke, hf, optparse_handle_int]
    rw [hinv]
    rfl

/-- C18, at a concrete input: in the scenario registry the run on `-n 0x10`
adds no null numeric call to the trace. -/
theorem numeric_converter_never_gets_null_witness :
    ∃ new,
      ({ world0 with
          ints := store world0.ints 0 16
          calls := world0.calls ++ [(num_opt 0, some "0x10".toList)] } : World).calls
        = world0.calls ++ new
      ∧ ∀ c ∈ new, null_numeric_call c = false :=
  (numeric_converter_never_gets_null strtod0 (help_num_registry none 0)
    ["-n".toList, "0x10".toList] world0 _ _ _
    (Registered.add_int _ _ _ _ _ _ (Registered.add_help (Registered.new _ _)))
    (parse_of_stop (scenario_reaches strtod0 none 0 [] world0)
      (loop_iter_end strtod0 _ _ (by decide)))).1

/-! ## Memory after a failure -/

/-- A converter call that returns 0 leaves every cell as it was. -/
theorem invoke_ret_zero_cells (strtod : CStr → Nat × Nat) (q : optparse) (o : optparse_opt)
    (arg : Option CStr) (w : World) (h : (invoke strtod q o arg w).1 = Status.ret 0) :
    (invoke strtod q o arg w).2.ints = w.ints ∧ (invoke strtod q o arg w).2.uints = w.uints
      ∧ (invoke strtod q o arg w).2.doubles = w.doubles
      ∧ (invoke strtod q o arg w).2.strs = w.strs := by
  unfold invoke at h ⊢
  cases hf : o.func <;> cases arg <;>
    simp only [hf, optparse_handle_help, optparse_handle_set, optparse_handle_int,
      optparse_handle_unsigned, optparse_handle_double, optparse_handle_string, eprint] at h ⊢ <;>
    first
      | (split_ifs at h ⊢
         · exact ⟨rfl, rfl, rfl, rfl⟩
         · simp at h)
      | (revert h
         split
         · intro h
           simp at h
         · intro h
           split_ifs at h ⊢
           · exact ⟨rfl, rfl, rfl, rfl⟩
           · simp at h)
      | (simp at h)

theorem after_handler_stop_fail {st : Status} {q p' : optparse} {w w' : World}
    (h : after_handler (st, q, w) = Step.stop (Status.ret (-1)) p' w') :
    st = Status.ret 0 ∧ w' = w := by
  unfold after_handler at h
  cases st with
  | ret v =>
    simp only at h
    split_ifs at h with hv
    cases h
    exact ⟨by rw [hv], rfl⟩
  | exited c => cases h
  | crashed => cases h

/-- An iteration that stops with -1 leaves every cell as it was. -/
theorem loop_iter_fail_cells {strtod : CStr → Nat × Nat} {p p' : optparse} {w w' : World}
    (h : loop_iter strtod p w = Step.stop (Status.ret (-1)) p' w') :
    w'.ints = w.ints ∧ w'.uints = w.uints ∧ w'.doubles = w.doubles ∧ w'.strs = w.strs := by
  rcases loop_iter_cases strtod p w with ⟨j, q, he⟩ | ⟨msg, q, he⟩ | ⟨o, ho, arg, q0, q, hc, he⟩
  · rw [he] at h
    cases h
  · rw [he] at h
    cases h
    exact ⟨rfl, rfl, rfl, rfl⟩
  · rw [he] at h
    obtain ⟨h1, h2⟩ := after_handler_stop_fail h
    rw [h2]
    exact invoke_ret_zero_cells strtod q0 o arg w h1

/-- C19. When `optparse_parse` returns -1, the scan had reached some token
`k`, and every cell holds what it held on arrival at `k`: the cells that differ
from their values before the scan are those written by the options processed
before `k`.  An int or unsigned converter that returns 0 changes nothing but
`stderr`, where it prints the `invalid number` diagnostic. -/
theorem failed_parse_leaves_cells (strtod : CStr → Nat × Nat) (parser : optparse)
    (argv : List CStr) (w0 w' : World) (p' : optparse)
    (hfail : optparse_parse strtod parser argv w0 = some (Status.ret (-1), p', w')) :
    (∃ k w, Reaches strtod parser argv w0 k w ∧ k < argv.length
        ∧ w'.ints = w.ints ∧ w'.uints = w.uints ∧ w'.doubles = w.doubles ∧ w'.strs = w.strs)
      ∧ (∀ (p : optparse) (o : optparse_opt) (a : CStr) (w : World),
          (optparse_handle_int p o (some a) w).1 = Status.ret 0 →
            (optparse_handle_int p o (some a) w).2 = eprint w (invalid_number_msg p a))
      ∧ (∀ (p : optparse) (o : optparse_opt) (a : CStr) (w : World),
          (optparse_handle_unsigned p o (some a) w).1 = Status.ret 0 →
            (optparse_handle_unsigned p o (some a) w).2 = eprint w (invalid_number_msg p a)) := by
  refine ⟨?_, ?_, ?_⟩
  · obtain ⟨n, p1, w1, hs, hstop⟩ := parse_loop_decompose strtod _ _ p' w0 w' _ hfail
    obtain ⟨j, hj, _, _⟩ := scan_steps_cursor strtod n _ _ _ _ hs
    subst hj
    refine ⟨j, w1, ⟨n, hs⟩, ?_, loop_iter_fail_cells hstop⟩
    by_contra hlt
    rw [loop_iter_end strtod _ w1 (by simpa [scan_start] using hlt)] at hstop
    simp only [Step.stop.injEq, Status.ret.injEq] at hstop
    omega
  · intro p o a w
    simp only [optparse_handle_int]
    split
    · intro h
      simp at h
    · intro h
      split_ifs at h ⊢
      · rfl
      · simp at h
  · intro p o a w
    simp only [optparse_handle_unsigned]
    split
    · intro h
      simp at h
    · intro h
      split_ifs at h ⊢
      · rfl
      · simp at h

/-- C19, at a concrete input: in the scenario registry the run on
`-n 0x10 -n` fails at index 2, and the cell still holds the 16 stored by the
first option. -/
theorem failed_parse_leaves_cells_witness :
    ∃ k w, Reaches strtod0 (help_num_registry none 0)
        ["-n".toList, "0x10".toList, "-n".toList] world0 k w
      ∧ k < ["-n".toList, "0x10".toList, "-n".toList].length
      ∧ (eprint
          { world0 with
            ints := store world0.ints 0 16
            calls := world0.calls ++ [(num_opt 0, some "0x10".toList)] }
          (short_requires_msg (help_num_registry none 0) 'n')).ints = w.ints
      ∧ (eprint
          { world0 with
            ints := store world0.ints 0 16
            calls := world0.calls ++ [(num_opt 0, some "0x10".toList)] }
          (short_requires_msg (help_num_registry none 0) 'n')).uints = w.uints
      ∧ (eprint
          { world0 with
            ints := store world0.ints 0 16
            calls := world0.calls ++ [(num_opt 0, some "0x10".toList)] }
          (short_requires_msg (help_num_registry none 0) 'n')).doubles = w.doubles
      ∧ (eprint
          { world0 with
            ints := store world0.ints 0 16
            calls := world0.calls ++ [(num_opt 0, some "0x10".toList)] }
          (short_requires_msg (help_num_registry none 0) 'n')).strs = w.strs :=
  (failed_parse_leaves_cells strtod0 (help_num_registry none 0)
    ["-n".toList, "0x10".toList, "-n".toList] world0 _ _
    (parse_of_fail (scenario_reaches strtod0 none 0 ["-n".toList] world0)
      (short_last_iter strtod0 (help_num_registry none 0)
        ["-n".toList, "0x10".toList, "-n".toList] _ 2 'n' [help_opt] [] (num_opt 0) []
        (help_num_registry_options none 0) (by decide) (by decide) rfl (by decide) rfl rfl))).1

/-! ## The empty argument -/

/-- The empty string has no subject sequence. -/
theorem parse_subject_nil (base : Nat) : parse_subject [] base = (false, 0, 0) := by
  unfold parse_subject
  by_cases h : base = 0 ∨ 2 ≤ base ∧ base ≤ 36
  · simp [h, scan_digits]
  · simp [h]

/-- The int converter accepts the empty string and stores 0, in every base
that `strtol` supports. -/
theorem handle_int_nil (p : optparse) (o : optparse_opt) (w : World)
    (hbase : o.num_base = 0 ∨ (2 ≤ o.num_base ∧ o.num_base ≤ 36)) :
    optparse_handle_int p o (some []) w
      = (Status.ret 1, { w with ints := store w.ints o.data 0 }) := by
  have hs : strtol [] o.num_base = some (0, 0) := by
    simp only [strtol, if_pos hbase, parse_subject_nil, LONG_MIN, LONG_MAX]
    rfl
  have hn : cget [] 0 = NUL := rfl
  simp only [optparse_handle_int, hs, hn, INT_MIN, INT_MAX]
  rfl

/-- The unsigned converter accepts the empty string and stores 0, in every
base that `strtoul` supports. -/
theorem handle_unsigned_nil (p : optparse) (o : optparse_opt) (w : World)
    (hbase : o.num_base = 0 ∨ (2 ≤ o.num_base ∧ o.num_base ≤ 36)) :
    optparse_handle_unsigned p o (some []) w
      = (Status.ret 1, { w with uints := store w.uints o.data 0 }) := by
  have hs : strtoul [] o.num_base = some (0, 0) := by
    simp only [strtoul, if_pos hbase, parse_subject_nil, ULONG_MAX]
    rfl
  have hn : cget [] 0 = NUL := rfl
  simp only [optparse_handle_unsigned, hs, hn, UINT_MAX]
  rfl

theorem invoke_int_nil (strtod : CStr → Nat × Nat) (p : optparse) (o : optparse_opt)
    (w : World) (h : o.func = optparse_func.handle_int)
    (hbase : o.num_base = 0 ∨ (2 ≤ o.num_base ∧ o.num_base ≤ 36)) :
    invoke strtod p o (some []) w
      = (Status.ret 1, { w with
          ints := store w.ints o.data 0
          calls := w.calls ++ [(o, some [])] }) := by
  simp only [invoke, h, handle_int_nil _ _ _ hbase]

theorem invoke_unsigned_nil (strtod : CStr → Nat × Nat) (p : optparse) (o : optparse_opt)
    (w : World) (h : o.func = optparse_func.handle_unsigned)
    (hbase : o.num_base = 0 ∨ (2 ≤ o.num_base ∧ o.num_base ≤ 36)) :
    invoke strtod p o (some []) w
      = (Status.ret 1, { w with
          uints := store w.uints o.data 0
          calls := w.calls ++ [(o, some [])] }) := by
  simp only [invoke, h, handle_unsigned_nil _ _ _ hbase]

/-- C20, where the claim fails.  The claim speaks of any base, and the
registration functions hand `base` to the option unchecked.  With the int
option `-n`, `--num` registered with base 1, the token `--num=` does not make
the converter report success and store 0: `strtol` is called with a base it
does not support and the converter then reads `*p` from a pointer that was
never initialised, so the run has undefined behaviour and the cell still holds
its initial value.  The same holds of the converter called directly on the
empty string. -/
theorem empty_argument_unsupported_base :
    (optparse_parse strtod0 base_one_registry ["--num=".toList] world0).map
        (fun r => (r.1, r.2.2.ints 0, r.2.2.stderr, r.2.2.calls.map (fun c => c.2)))
      = some (Status.crashed, 0, [], [some []])
    ∧ (optparse_handle_int base_one_registry (nth_opt base_one_registry 0) (some []) world0).1
      = Status.crashed
    ∧ (nth_opt base_one_registry 0).func = optparse_func.handle_int
    ∧ (nth_opt base_one_registry 0).num_base = 1 := by
  decide

/-- C20, amended.  Let `o` be an int or unsigned option whose base is 0 or
within 2..36, that takes an argument and has the non-empty long form `L`,
reached as the first match.  The token `--L=` makes the converter report
success and store 0, and scanning continues at the next index; so does the
token `-c` followed by an empty token, with scanning continuing after the
empty token.  Nothing is printed on `stderr`: the invalid number diagnostic is
not raised.  The converters themselves accept the empty string in every such
base. -/
theorem empty_argument_is_zero (strtod : CStr → Nat × Nat) (parser : optparse)
    (argv : List CStr) (w0 w : World) (i : Nat) (pre post : List optparse_opt)
    (o : optparse_opt) (L : CStr)
    (hreach : Reaches strtod parser argv w0 i w)
    (hopts : parser.options = pre ++ o :: post)
    (hL : o.long_opt = some L) (hlen : o.long_opt_len = strlen L) (hL0 : cget L 0 ≠ NUL)
    (harg : o.arg_desc.isSome = true)
    (hbase : o.num_base = 0 ∨ (2 ≤ o.num_base ∧ o.num_base ≤ 36)) :
    (o.func = optparse_func.handle_int →
        (argv.get? i = some ("--".toList ++ L ++ "=".toList) →
          (∀ o' ∈ pre, long_hit (L ++ "=".toList) o' = false) →
          Reaches strtod parser argv w0 (i + 1)
            { w with
              ints := store w.ints o.data 0
              calls := w.calls ++ [(o, some [])] })
        ∧ (∀ c : Char, short_hit c o = true → c ≠ '-' → argv.get? i = some ['-', c] →
          argv.get? (i + 1) = some [] → (∀ o' ∈ pre, short_hit c o' = false) →
          Reaches strtod parser argv w0 (i + 2)
            { w with
              ints := store w.ints o.data 0
              calls := w.calls ++ [(o, some [])] }))
      ∧ (o.func = optparse_func.handle_unsigned →
        (argv.get? i = some ("--".toList ++ L ++ "=".toList) →
          (∀ o' ∈ pre, long_hit (L ++ "=".toList) o' = false) →
          Reaches strtod parser argv w0 (i + 1)
            { w with
              uints := store w.uints o.data 0
              calls := w.calls ++ [(o, some [])] })
        ∧ (∀ c : Char, short_hit c o = true → c ≠ '-' → argv.get? i = some ['-', c] →
          argv.get? (i + 1) = some [] → (∀ o' ∈ pre, short_hit c o' = false) →
          Reaches strtod parser argv w0 (i + 2)
            { w with
              uints := store w.uints o.data 0
              calls := w.calls ++ [(o, some [])] }))
      ∧ (∀ (p : optparse) (o' : optparse_opt) (w1 : World),
          (o'.num_base = 0 ∨ (2 ≤ o'.num_base ∧ o'.num_base ≤ 36)) →
          optparse_handle_int p o' (some []) w1
              = (Status.ret 1, { w1 with ints := store w1.ints o'.data 0 })
            ∧ optparse_handle_unsigned p o' (some []) w1
              = (Status.ret 1, { w1 with uints := store w1.uints o'.data 0 })) := by
  have hn : o.arg_desc.isNone = false := by
    cases hd : o.arg_desc with
    | none => rw [hd] at harg; cases harg
    | some d => rfl
  refine ⟨?_, ?_, fun p o' w1 hb => ⟨handle_int_nil p o' w1 hb, handle_unsigned_nil p o' w1 hb⟩⟩
  · intro hf
    refine ⟨?_, ?_⟩
    · intro htok hpre
      have h := long_value_iter strtod parser argv w i pre post o L [] hopts hL hlen hL0 htok hpre
      simp only [hn, Bool.false_eq_true, if_false] at h
      rw [invoke_int_nil strtod _ o w hf hbase, after_handler_ret_nonzero 1 (by decide)] at h
      exact reaches_next hreach h
    · intro c hhit hc htok hnext hpre
      have h := short_arg_iter strtod parser argv w i c pre post o [] [] hopts hpre hhit harg hc
        htok hnext
      rw [invoke_int_nil strtod _ o w hf hbase, after_handler_ret_nonzero 1 (by decide)] at h
      exact reaches_next hreach h
  · intro hf
    refine ⟨?_, ?_⟩
    · intro htok hpre
      have h := long_value_iter strtod parser argv w i pre post o L [] hopts hL hlen hL0 htok hpre
      simp only [hn, Bool.false_eq_true, if_false] at h
      rw [invoke_unsigned_nil strtod _ o w hf hbase, after_handler_ret_nonzero 1 (by decide)] at h
      exact reaches_next hreach h
    · intro c hhit hc htok hnext hpre
      have h := short_arg_iter strtod parser argv w i c pre post o [] [] hopts hpre hhit harg hc
        htok hnext
      rw [invoke_unsigned_nil strtod _ o w hf hbase, after_handler_ret_nonzero 1 (by decide)] at h
      exact reaches_next hreach h

/-- C20 amended, at a concrete input: in the registry of the test program the
option `--decimal` has base 10, and the token `--decimal=` stores 0 in the
unsigned cell and scanning goes on. -/
theorem empty_argument_is_zero_witness :
    Reaches strtod0 test_registry ["--decimal=".toList] world0 (0 + 1)
      { world0 with
        uints := store world0.uints (nth_opt test_registry 6).data 0
        calls := world0.calls ++ [(nth_opt test_registry 6, some [])] } :=
  ((empty_argument_is_zero strtod0 test_registry ["--decimal=".toList] world0 world0 0
    (test_registry.options.take 6) (test_registry.options.drop 7) (nth_opt test_registry 6)
    "decimal".toList (reaches_start _ _ _ _) (by decide) (by decide) (by decide) (by decide)
    (by decide) (by decide)).2.1 (by decide)).1 rfl (by decide)

end Optparse
